import Mathlib

/-!
# SetUID shell executor: identity validation and directory provisioning

A shallow embedding of `executors/shell/executor_shell_setuid_helpers.go` and of the
`Prepare` / `prepareSetUID` pair of `executors/shell/executor_shell.go`
(`executors/hpc/executor_hpc.go` carries the same pair), together with `Run` of the HPC
executor and `killAndWait` of the shell executor.

Conventions of the embedding:

* the receiver `s *executor` is threaded explicitly as a value of `executor`;
* Go `error` results are values of `Error`, one constructor per `fmt.Errorf` site;
* the operating system (user database, file system, working directory) is explicit:
  `UserDB` stands for package `os/user`, `FS` for the directory tree seen through
  `os.Stat` / `os.MkdirAll` / `os.Chown`, `OS` for the remaining calls;
* a nil-pointer dereference is the outcome `Outcome.panicked`.
-/

set_option autoImplicit false

namespace SetUID

/-! ## Data model -/

/-- Entry of the OS user database (`os/user.User`); on POSIX the uid and gid are decimal
strings which the code converts with `strconv.Atoi`, here they are numbers already. -/
structure User where
  Uid : Nat
  Gid : Nat
  HomeDir : String
deriving DecidableEq, Repr

/-- Package `os/user`: `user.Lookup`, `(*User).GroupIds` (the id list together with
whether an error was returned) and `user.LookupGroupId` (the group's name). -/
structure UserDB where
  Lookup : String → Option User
  GroupIds : User → List String × Bool
  LookupGroupId : String → Option String

/-- Settings read from `options.Build.Runner`. -/
structure RunnerConfig where
  SetUID : Bool
  SetUIDDataDir : String
  SetUIDUserWhitelist : List String
  SetUIDUserBlacklist : List String
  SetUIDGroupWhitelist : List String
  SetUIDGroupBlacklist : List String

/-- Value of `common.ExecutorPrepareOptions` as far as the executor reads it:
`Variables` is `options.Build.GetAllVariables().Get`. -/
structure ExecutorPrepareOptions where
  User : String
  Runner : RunnerConfig
  Variables : String → String

/-- Fields of the executor (through the embedded `AbstractExecutor`) that the SetUID
code reads or writes; `ShellUser` is `s.Shell().User`, `Printed` collects the lines
written with `s.Println`. -/
structure executor where
  ValidatedUser : String
  ValidatedUserUID : Nat
  ValidatedUserGID : Nat
  UserHomeDir : String
  DefaultBuildsDir : String
  DefaultCacheDir : String
  ShellUser : String
  Printed : List String
deriving DecidableEq, Repr

/-- Metadata of a directory as `os.Stat` reports it: owner, group and permission bits. -/
structure Stat where
  Uid : Nat
  Gid : Nat
  Mode : Nat
deriving DecidableEq, Repr

/-- State of the file system: the directories that exist, each with its metadata, newest
first. Paths are the strings the code builds; two different strings name two different
directories. -/
abbrev FS := List (String × Stat)

/-- Errors of the operating system calls made by `CreateDirectory`. -/
inductive OSError where
  /-- `os.MkdirAll` refused the path. -/
  | mkdir (dir : String)
  /-- `os.Chown` refused the path. -/
  | chown (dir : String)
deriving DecidableEq, Repr

/-- Errors, one constructor per site that builds one. -/
inductive Error where
  /-- "golang was unable to perform a lookup on the logged in user". -/
  | userLookup (login : String)
  /-- "golang was unable to get the list of groups". -/
  | groupList (login : String)
  /-- "is not in the user whitelist and is in the user blacklist". -/
  | userBlacklisted (login : String)
  /-- "is a member of the following groups that are on the groups blacklist". -/
  | groupBlacklisted (login : String) (sharedBlacklistedGroups : List String)
  /-- "a group whitelist exists, but the user is not a member of any groups". -/
  | notInGroupWhitelist (login : String)
  /-- "could not validate that user is allowed to run CI jobs". -/
  | couldNotValidate (login : String)
  /-- "Could not create top level data directories" of the home strategy. -/
  | homeDirs (build cache root : Option OSError)
  /-- "The data dir specified in config must exist". -/
  | dataDirMissing
  /-- "could not create top level data directories" (namespace directory). -/
  | groupDir (cause : OSError)
  /-- "could not create data directory" (project directory). -/
  | projectDir (dir : String) (cause : OSError)
  /-- "could not create builds and cache". -/
  | buildsCache (build cache : Option OSError)
  /-- "could not create users builds and cache" (the users parents). -/
  | usersDirs (build cache : Option OSError)
  /-- "could not create users builds and cache" (the per-user leaves). -/
  | validatedUserDirs (build cache : Option OSError)
  /-- "Could not create top level data directories" of the default strategy. -/
  | defaultTopDirs (first second : Option OSError)
  /-- "Could not create user data directories" of the default strategy. -/
  | defaultUserDirs (build cache : Option OSError)
  /-- "User provided for SetUID Runner is not valid". -/
  | userNotValid (cause : Error)
  /-- "Could not prepare the SetUID Runner". -/
  | couldNotPrepare (cause : Error)
  /-- "Getwd". -/
  | getwd
  /-- Error returned by the host framework (`AbstractExecutor.Prepare`). -/
  | host
deriving DecidableEq, Repr

/-- How a call ends: `nil`, an error, or a run-time panic. -/
inductive Outcome where
  | ok
  | failed (e : Error)
  | panicked
deriving DecidableEq, Repr

/-- What the executor calls outside this package: the user database, `os.Getwd`,
`os.Expand`, the paths on which `os.MkdirAll` and `os.Chown` fail, the effective uid and
gid of the runner process (owner of a directory between `MkdirAll` and `Chown`), and the
host framework's `AbstractExecutor.Prepare`. -/
structure Env where
  users : UserDB
  Getwd : Option String
  Expand : String → (String → String) → String
  mkdirFails : String → Bool
  chownFails : String → Bool
  euid : Nat
  egid : Nat
  AbstractPrepare : executor → ExecutorPrepareOptions → Outcome × executor

/-! ## Identity validator -/

/-- The `for _, x := range list` loop of `contains`. -/
def containsLoop : List String → String → Bool
  | [], _ => false
  | x :: xs, item => if x = item then true else containsLoop xs item

/-- Source function `contains`: whether `item` occurs in `list`. -/
def contains (list : List String) (item : String) : Bool :=
  if list.length = 0 then false else containsLoop list item

/-- The loop of `CheckGroupWhitelist` over the user's groups. -/
def whitelistLoop (groupWhitelist : List String) : List String → Bool
  | [] => false
  | userGroup :: rest =>
    if contains groupWhitelist userGroup then true else whitelistLoop groupWhitelist rest

/-- Source function `CheckGroupWhitelist`. -/
def CheckGroupWhitelist (groupWhitelist userGroups : List String) : Bool :=
  if !(decide (groupWhitelist.length > 0)) then false
  else whitelistLoop groupWhitelist userGroups

/-- The loop of `CheckGroupBlacklist`, appending to `sharedGroups`. -/
def blacklistLoop (groupBlacklist : List String) : List String → List String → List String
  | [], sharedGroups => sharedGroups
  | userGroup :: rest, sharedGroups =>
    if contains groupBlacklist userGroup then
      blacklistLoop groupBlacklist rest (sharedGroups ++ [userGroup])
    else blacklistLoop groupBlacklist rest sharedGroups

/-- Source function `CheckGroupBlacklist`. -/
def CheckGroupBlacklist (groupBlacklist userGroups : List String) : Bool × List String :=
  if groupBlacklist.length = 0 then (false, [])
  else
    let sharedGroups := blacklistLoop groupBlacklist userGroups []
    if sharedGroups.length > 0 then (true, sharedGroups) else (false, sharedGroups)

/-- The loop of `ValidateUser` that resolves group ids to names; the error of
`user.LookupGroupId` is discarded and the pointer dereferenced, so an id that does not
resolve ends the loop with a panic (`none`). -/
def lookupGroupNames (db : UserDB) : List String → List String → Option (List String)
  | [], groups => some groups
  | gid :: rest, groups =>
    match db.LookupGroupId gid with
    | none => none
    | some name => lookupGroupNames db rest (groups ++ [name])

/-- The assignments made on each allowing branch of `ValidateUser`. -/
def recordValidated (s : executor) (gitlabUser : String) (usr : User) : executor :=
  { s with
    ValidatedUserUID := usr.Uid
    ValidatedUserGID := usr.Gid
    ValidatedUser := gitlabUser
    UserHomeDir := usr.HomeDir }

/-- Source method `ValidateUser`. -/
def ValidateUser (db : UserDB) (s : executor) (options : ExecutorPrepareOptions) :
    Outcome × executor :=
  let gitlabUser := options.Variables "GITLAB_USER_LOGIN"
  match db.Lookup gitlabUser with
  | none => (.failed (.userLookup gitlabUser), s)
  | some usr =>
    match lookupGroupNames db (db.GroupIds usr).1 [] with
    | none => (.panicked, s)
    | some groups =>
      if (db.GroupIds usr).2 then (.failed (.groupList gitlabUser), s)
      else
        let setuidUserWhitelist := options.Runner.SetUIDUserWhitelist
        let setuidUserBlacklist := options.Runner.SetUIDUserBlacklist
        let setuidGroupWhitelist := options.Runner.SetUIDGroupWhitelist
        let setuidGroupBlacklist := options.Runner.SetUIDGroupBlacklist
        if contains setuidUserWhitelist gitlabUser then
          (.ok, recordValidated s gitlabUser usr)
        else if contains setuidUserBlacklist gitlabUser then
          (.failed (.userBlacklisted gitlabUser), s)
        else
          let blacklisted := CheckGroupBlacklist setuidGroupBlacklist groups
          if blacklisted.1 then
            (.failed (.groupBlacklisted gitlabUser blacklisted.2), s)
          else
            let inGroupWhitelist := CheckGroupWhitelist setuidGroupWhitelist groups
            if inGroupWhitelist then
              (.ok, recordValidated s gitlabUser usr)
            else if setuidGroupWhitelist.length = 0 then
              (.ok, recordValidated s gitlabUser usr)
            else if decide (setuidGroupWhitelist.length > 0) && !inGroupWhitelist then
              (.failed (.notInGroupWhitelist gitlabUser), s)
            else
              (.failed (.couldNotValidate gitlabUser), s)

/-! ## File system -/

/-- Call `os.Stat` on a path: the metadata of the directory, `none` when
`os.IsNotExist` holds of the error. A path that exists always yields its metadata, so
the `osStatErr` return of the provisioner has no counterpart here. -/
def stat : FS → String → Option Stat
  | [], _ => none
  | (p, st) :: rest, dir => if p = dir then some st else stat rest dir

/-- Call `os.MkdirAll` where it succeeds on a missing path: the directory exists
afterwards with the requested permission bits, owned by the runner process. The state
records the named directory only, not the missing ancestors `MkdirAll` makes on the way,
and the permission bits are stored as requested (no umask is applied). -/
def MkdirAll (env : Env) (fs : FS) (dir : String) (mode : Nat) : FS :=
  (dir, { Uid := env.euid, Gid := env.egid, Mode := mode }) :: fs

/-- Call `os.Chown` where it succeeds: owner and group of the directory are replaced. -/
def Chown (fs : FS) (dir : String) (uid gid : Nat) : FS :=
  fs.map fun e => if e.1 = dir then (e.1, { e.2 with Uid := uid, Gid := gid }) else e

/-- Source method `EnsureOwnership`. -/
def EnsureOwnership (env : Env) (fs : FS) (dir : String) (uid gid : Nat) :
    Option OSError × FS :=
  if env.chownFails dir then (some (.chown dir), fs) else (none, Chown fs dir uid gid)

/-- Source method `CreateDirectory`: create the directory with owner, group and mode
when `os.Stat` reports it missing, do nothing when it exists. -/
def CreateDirectory (env : Env) (fs : FS) (dir : String) (owner group : Nat) (mode : Nat) :
    Option OSError × FS :=
  match stat fs dir with
  | none =>
    if env.mkdirFails dir then (some (.mkdir dir), fs)
    else EnsureOwnership env (MkdirAll env fs dir mode) dir owner group
  | some _ => (none, fs)

/-! ## Directory provisioner -/

/-- Branch of `PrepareSetUIDDirectories` for `SetUIDDataDir == "$HOME"`. -/
def prepareHome (env : Env) (s : executor) (fs : FS) : Option Error × executor × FS :=
  let rootDir := s.UserHomeDir ++ "/.gitlab-runner/"
  let expandedBuildDir := rootDir ++ "/builds"
  let expandedCacheDir := rootDir ++ "/cache"
  let rootDirValid := CreateDirectory env fs rootDir s.ValidatedUserUID s.ValidatedUserGID 0o750
  let buildDirValid :=
    CreateDirectory env rootDirValid.2 expandedBuildDir s.ValidatedUserUID s.ValidatedUserGID 0o750
  let cacheDirValid :=
    CreateDirectory env buildDirValid.2 expandedCacheDir s.ValidatedUserUID s.ValidatedUserGID 0o750
  if buildDirValid.1.isSome || cacheDirValid.1.isSome || rootDirValid.1.isSome then
    (some (.homeDirs buildDirValid.1 cacheDirValid.1 rootDirValid.1), s, cacheDirValid.2)
  else
    (none, { s with DefaultBuildsDir := expandedBuildDir, DefaultCacheDir := expandedCacheDir },
      cacheDirValid.2)

/-- Both branches of `PrepareSetUIDDirectories` under a configured data directory, from
the creation of the namespace directory `groupDir` on: the two branches differ only in
the `gid` and `mode` given to the directories above the per-user leaves. -/
def prepareTree (env : Env) (s : executor) (fs : FS) (groupDir projectName : String)
    (gid mode : Nat) : Option Error × executor × FS :=
  let createGroupDir := CreateDirectory env fs groupDir 0 gid mode
  match createGroupDir.1 with
  | some e => (some (.groupDir e), s, createGroupDir.2)
  | none =>
    let projectDir := groupDir ++ "/" ++ projectName
    let createProjectDir := CreateDirectory env createGroupDir.2 projectDir 0 gid mode
    match createProjectDir.1 with
    | some e => (some (.projectDir projectDir e), s, createProjectDir.2)
    | none =>
      let buildDir := projectDir ++ "/" ++ "builds"
      let cacheDir := projectDir ++ "/" ++ "cache"
      let createBuildDir := CreateDirectory env createProjectDir.2 buildDir 0 gid mode
      let createCacheDir := CreateDirectory env createBuildDir.2 cacheDir 0 gid mode
      if createCacheDir.1.isSome || createBuildDir.1.isSome then
        (some (.buildsCache createBuildDir.1 createCacheDir.1), s, createCacheDir.2)
      else
        let usersBuildDir := buildDir ++ "/" ++ "users"
        let usersCacheDir := cacheDir ++ "/" ++ "users"
        let createUsersBuildDir := CreateDirectory env createCacheDir.2 usersBuildDir 0 gid mode
        let createUsersCacheDir :=
          CreateDirectory env createUsersBuildDir.2 usersCacheDir 0 gid mode
        if createUsersBuildDir.1.isSome || createUsersCacheDir.1.isSome then
          (some (.usersDirs createUsersBuildDir.1 createUsersCacheDir.1), s,
            createUsersCacheDir.2)
        else
          let validatedUserBuildDir := usersBuildDir ++ "/" ++ s.ValidatedUser
          let validatedUserCacheDir := usersCacheDir ++ "/" ++ s.ValidatedUser
          let createValidatedUserBuildDir :=
            CreateDirectory env createUsersCacheDir.2 validatedUserBuildDir
              s.ValidatedUserUID s.ValidatedUserGID 0o750
          let createValidatedUserCacheDir :=
            CreateDirectory env createValidatedUserBuildDir.2 validatedUserCacheDir
              s.ValidatedUserUID s.ValidatedUserGID 0o750
          if createValidatedUserBuildDir.1.isSome || createValidatedUserCacheDir.1.isSome then
            (some (.validatedUserDirs createUsersBuildDir.1 createUsersCacheDir.1), s,
              createValidatedUserCacheDir.2)
          else
            (none,
              { s with
                DefaultBuildsDir := validatedUserBuildDir
                DefaultCacheDir := validatedUserCacheDir },
              createValidatedUserCacheDir.2)

/-- Branch of `PrepareSetUIDDirectories` for a configured data directory. When the
namespace directory is missing the tree is created `root:root` with mode `0701`; when it
exists its group id is read from `os.Stat` and `mode` is assigned `0750`. -/
def prepareDataDir (env : Env) (s : executor) (fs : FS) (options : ExecutorPrepareOptions) :
    Option Error × executor × FS :=
  match stat fs options.Runner.SetUIDDataDir with
  | none => (some .dataDirMissing, s, fs)
  | some _ =>
    let groupDir := options.Runner.SetUIDDataDir ++ options.Variables "CI_PROJECT_NAMESPACE"
    match stat fs groupDir with
    | none => prepareTree env s fs groupDir (options.Variables "CI_PROJECT_NAME") 0 0o701
    | some groupDirStats =>
      let gid := groupDirStats.Gid
      let mode := 0o750
      prepareTree env s fs groupDir (options.Variables "CI_PROJECT_NAME") gid mode

/-- Branch of `PrepareSetUIDDirectories` when no data directory is configured. The mode
of the second `users/` parent is the source literal `07E1`, which Go reads as the
constant `7e1`, that is 70 (octal `0106`). -/
def prepareDefault (env : Env) (s : executor) (fs : FS) (mapping : String → String) :
    Option Error × executor × FS :=
  let expandedBuildDir := env.Expand s.DefaultBuildsDir mapping ++ "/users/"
  let expandedCacheDir := env.Expand s.DefaultCacheDir mapping ++ "/users/"
  let cacheDirValid := CreateDirectory env fs expandedBuildDir 0 0 0o751
  let buildDirValid := CreateDirectory env cacheDirValid.2 expandedCacheDir 0 0 70
  if cacheDirValid.1.isSome || buildDirValid.1.isSome then
    (some (.defaultTopDirs cacheDirValid.1 buildDirValid.1), s, buildDirValid.2)
  else
    let userBuildDir := expandedBuildDir ++ s.ValidatedUser
    let userCacheDir := expandedCacheDir ++ s.ValidatedUser
    let userBuildDirValid :=
      CreateDirectory env buildDirValid.2 userBuildDir s.ValidatedUserUID s.ValidatedUserGID 0o750
    let userCacheDirValid :=
      CreateDirectory env userBuildDirValid.2 userCacheDir
        s.ValidatedUserUID s.ValidatedUserGID 0o750
    if userBuildDirValid.1.isSome || userCacheDirValid.1.isSome then
      (some (.defaultUserDirs userBuildDirValid.1 userCacheDirValid.1), s, userCacheDirValid.2)
    else
      (none, { s with DefaultBuildsDir := userBuildDir, DefaultCacheDir := userCacheDir },
        userCacheDirValid.2)

/-- Source method `PrepareSetUIDDirectories`: error (or `nil`), executor and file system
after the call. -/
def PrepareSetUIDDirectories (env : Env) (s : executor) (fs : FS)
    (options : ExecutorPrepareOptions) (mapping : String → String) :
    Option Error × executor × FS :=
  if options.Runner.SetUIDDataDir = "$HOME" then prepareHome env s fs
  else if options.Runner.SetUIDDataDir ≠ "" then prepareDataDir env s fs options
  else prepareDefault env s fs mapping

/-! ## Front door -/

/-- Source method `prepareSetUID` (the same text in the shell and the HPC executor):
the result of `PrepareSetUIDDirectories` is not assigned. -/
def prepareSetUID (env : Env) (s : executor) (fs : FS) (options : ExecutorPrepareOptions)
    (mapping : String → String) : Outcome × executor × FS :=
  let userValid := ValidateUser env.users s options
  match userValid.1 with
  | .failed userValidErr => (.failed (.userNotValid userValidErr), userValid.2, fs)
  | .panicked => (.panicked, userValid.2, fs)
  | .ok =>
    let dirs := PrepareSetUIDDirectories env userValid.2 fs options mapping
    (.ok, { dirs.2.1 with ShellUser := dirs.2.1.ValidatedUser }, dirs.2.2)

/-- The closure `mapping` of `Prepare`. -/
def mapping (wd : String) (key : String) : String :=
  if key = "PWD" then wd else ""

/-- Tail of `Prepare`: hand over to `AbstractExecutor.Prepare`, then print the banner. -/
def passControl (env : Env) (s : executor) (fs : FS) (options : ExecutorPrepareOptions)
    (startMsg : String) : Outcome × executor × FS :=
  let r := env.AbstractPrepare s options
  match r.1 with
  | .ok => (.ok, { r.2 with Printed := r.2.Printed ++ [startMsg] }, fs)
  | err => (err, r.2, fs)

/-- Source method `Prepare` of the shell executor. -/
def Prepare (env : Env) (s : executor) (fs : FS) (options : ExecutorPrepareOptions) :
    Outcome × executor × FS :=
  match env.Getwd with
  | none => (.failed .getwd, s, fs)
  | some wd =>
    if options.Runner.SetUID then
      let r := prepareSetUID env s fs options (mapping wd)
      match r.1 with
      | .failed setuidValidErr => (.failed (.couldNotPrepare setuidValidErr), r.2.1, r.2.2)
      | .panicked => (.panicked, r.2.1, r.2.2)
      | .ok => passControl env r.2.1 r.2.2 options "Using SetUID Shell executor..."
    else
      let s1 := if options.User ≠ "" then { s with ShellUser := options.User } else s
      let s2 :=
        { s1 with
          DefaultBuildsDir := env.Expand s1.DefaultBuildsDir (mapping wd)
          DefaultCacheDir := env.Expand s1.DefaultCacheDir (mapping wd) }
      passControl env s2 fs options "Using Shell executor..."

/-! ## Batch job adapter (`executors/hpc/executor_hpc.go`) -/

namespace HPC

/-- Job states of package `drmaa` (`drmaa.PsType`), an external library. -/
inductive PsType where
  | PsUndetermined
  | PsQueuedActive
  | PsSystemOnHold
  | PsUserOnHold
  | PsUserSystemOnHold
  | PsRunning
  | PsSystemSuspended
  | PsUserSuspended
  | PsUserSystemSuspended
  | PsDone
  | PsFailed
deriving DecidableEq, Repr

/-- Method `String` of `drmaa.PsType`. -/
def PsType.String : PsType → String
  | .PsUndetermined => "Undetermined"
  | .PsQueuedActive => "QueuedActive"
  | .PsSystemOnHold => "SystemOnHold"
  | .PsUserOnHold => "UserOnHold"
  | .PsUserSystemOnHold => "UserSystemOnHold"
  | .PsRunning => "Running"
  | .PsSystemSuspended => "SystemSuspended"
  | .PsUserSuspended => "UserSuspended"
  | .PsUserSystemSuspended => "UserSystemSuspended"
  | .PsDone => "Done"
  | .PsFailed => "Failed"

/-- The scheduler as `Run` sees it. Each call either succeeds or returns an error text;
`JobPs n` is the answer to the status query number `n` (0 for the query before the loop),
a state together with the error, if any. -/
structure Scheduler where
  MakeSession : Option String
  AllocateJobTemplate : Option String
  RunJob : Except String String
  JobPs : Nat → PsType × Option String
  Wait : Option String

/-- Errors returned by `Run`, one constructor per `fmt.Errorf` site. -/
inductive RunError where
  /-- "Could not create DRMAA session". -/
  | session (cause : String)
  /-- "Could not create DRMAA job template". -/
  | jobTemplate (cause : String)
  /-- "Could not create DRMAA job process ID". -/
  | runJob (cause : String)
  /-- "Error during job status query". -/
  | statusQuery (cause : String)
  /-- "Error waiting for job to finish". -/
  | wait (jobID : String) (cause : String)
deriving DecidableEq, Repr

/-- Calls `Run` makes besides the ones whose result it inspects: the deferred releases,
the sleeps and the printed lines. -/
inductive Call where
  | sleep500ms
  | printStatus (ps : PsType)
  | printCompleted
  | deleteJobTemplate
  | sessionExit
deriving DecidableEq, Repr

/-- What the polling loop of `Run` leaves behind: the last state and error assigned to
`ps` and `errPS`, the number of status queries made so far and the calls logged. -/
structure Polled where
  ps : PsType
  errPS : Option String
  queries : Nat
  log : List Call
deriving DecidableEq, Repr

/-- The loop `for ps != drmaa.PsRunning && errPS == nil` of `Run`, with `break` when the
re-queried state prints as `Done`. The loop has no bound of its own; `fuel` bounds the
number of iterations and `none` means the loop is still running when it is used up. -/
def pollLoop (sched : Scheduler) : Nat → Polled → Option Polled
  | fuel, p =>
    if p.ps ≠ PsType.PsRunning ∧ p.errPS = none then
      match fuel with
      | 0 => none
      | fuel + 1 =>
        let r := sched.JobPs p.queries
        let p1 : Polled :=
          { ps := r.1
            errPS := r.2
            queries := p.queries + 1
            log := p.log ++ [Call.printStatus p.ps, Call.sleep500ms] }
        if r.1.String = "Done" then some p1 else pollLoop sched fuel p1
    else some p

/-- Source method `Run` of the HPC executor: the returned error (`none` for `nil`) and
the calls logged, the deferred `DeleteJobTemplate` and `Exit` last; `none` when the
polling loop is still running after `fuel` iterations. -/
def Run (sched : Scheduler) (fuel : Nat) : Option (Option RunError × List Call) :=
  match sched.MakeSession with
  | some sessionErr => some (some (.session sessionErr), [])
  | none =>
    match sched.AllocateJobTemplate with
    | some jobTemplateErr => some (some (.jobTemplate jobTemplateErr), [.sessionExit])
    | none =>
      match sched.RunJob with
      | .error errRun => some (some (.runJob errRun), [.deleteJobTemplate, .sessionExit])
      | .ok jobID =>
        match (sched.JobPs 0).2 with
        | some errPS => some (some (.statusQuery errPS), [.deleteJobTemplate, .sessionExit])
        | none =>
          match pollLoop sched fuel
              { ps := (sched.JobPs 0).1, errPS := none, queries := 1, log := [] } with
          | none => none
          | some p =>
            match sched.Wait with
            | some errWait =>
              some (some (.wait jobID errWait), p.log ++ [.deleteJobTemplate, .sessionExit])
            | none =>
              some (none, p.log ++ [.printCompleted, .deleteJobTemplate, .sessionExit])

end HPC

/-! ## Process executor: cancellation (`executors/shell/executor_shell.go`) -/

/-- Value sent on `waitCh` by the goroutine of `Run`: the result of `c.Wait()`, an
`*exec.ExitError` wrapped into `common.BuildError`. -/
inductive WaitResult where
  /-- The `nil` error: the process exited with status 0. -/
  | exited
  /-- `&common.BuildError{Inner: err}` for an `*exec.ExitError`. -/
  | buildError (status : Nat)
  /-- Any other error of `c.Wait()`. -/
  | waitError (cause : String)
deriving DecidableEq, Repr

/-- Which case of the `select` in `killAndWait` is taken in one iteration: the timer
`time.After(time.Second)` fired, or `waitCh` delivered the exit result. -/
inductive Select where
  | timeout
  | received (err : WaitResult)
deriving DecidableEq, Repr

/-- State of `killAndWait`: how many times `helpers.KillProcessGroup` has been called,
and the value returned once the function has returned. -/
structure KillState where
  signals : Nat
  returned : Option WaitResult
deriving DecidableEq, Repr

/-- One iteration of the `for` loop of `killAndWait`: signal the process group, then
take the `select`; the timer case falls through to the next iteration, the `waitCh`
case returns the received value. Once returned there is no further iteration. -/
def killIteration (st : KillState) (ev : Select) : KillState :=
  match st.returned with
  | some _ => st
  | none =>
    match ev with
    | .timeout => { signals := st.signals + 1, returned := none }
    | .received err => { signals := st.signals + 1, returned := some err }

/-- Source method `killAndWait` run along a sequence of `select` outcomes, one per
iteration; `returned = none` at the end means the loop is still running. -/
def killAndWait (events : List Select) : KillState :=
  events.foldl killIteration { signals := 0, returned := none }

/-- Which case of the `select` at the end of `Run` is taken: `waitCh` delivered the
exit result, or the context was cancelled. -/
inductive RunSelect where
  | finished (err : WaitResult)
  | cancelled
deriving DecidableEq, Repr

/-- The `select` at the end of `Run` of the shell executor ("Support process abort"):
return the exit result, or on cancellation the result of `killAndWait`. The deferred
`helpers.KillProcessGroup`, which runs after the return, is not counted in `signals`. -/
def awaitOrAbort (first : RunSelect) (events : List Select) : KillState :=
  match first with
  | .finished err => { signals := 0, returned := some err }
  | .cancelled => killAndWait events

/-! ## Resolved identities and sample data -/

/-- The OS lookups of `ValidateUser` succeed for `login`: `user.Lookup` finds `usr`,
`GroupIds` returns no error and every group id resolves, the names being `groups`. -/
def Resolves (db : UserDB) (login : String) (usr : User) (groups : List String) : Prop :=
  db.Lookup login = some usr ∧ (db.GroupIds usr).2 = false ∧
    lookupGroupNames db (db.GroupIds usr).1 [] = some groups

/-- Sample user database: `alice` (uid 1000) in groups `eng` and `finance`, `bob`
(uid 1001) in group `eng`. -/
def sampleUsers : UserDB where
  Lookup := fun n =>
    if n = "alice" then some ⟨1000, 1000, "/home/alice"⟩
    else if n = "bob" then some ⟨1001, 1001, "/home/bob"⟩
    else none
  GroupIds := fun u => if u.Uid = 1000 then (["10", "20"], false) else (["10"], false)
  LookupGroupId := fun g =>
    if g = "10" then some "eng" else if g = "20" then some "finance" else none

/-- Sample job variables for a login, namespace `ns` and project `proj`. -/
def sampleVariables (login : String) (key : String) : String :=
  if key = "GITLAB_USER_LOGIN" then login
  else if key = "CI_PROJECT_NAMESPACE" then "ns"
  else if key = "CI_PROJECT_NAME" then "proj"
  else ""

/-- Sample options: SetUID mode for `login` with the given data directory and the four
policy lists. -/
def sampleOptions (login dataDir : String) (userWhitelist userBlacklist groupWhitelist
    groupBlacklist : List String) : ExecutorPrepareOptions where
  User := ""
  Runner :=
    { SetUID := true
      SetUIDDataDir := dataDir
      SetUIDUserWhitelist := userWhitelist
      SetUIDUserBlacklist := userBlacklist
      SetUIDGroupWhitelist := groupWhitelist
      SetUIDGroupBlacklist := groupBlacklist }
  Variables := sampleVariables login

/-- A fresh executor as the registered `creator` builds it. -/
def freshExecutor : executor where
  ValidatedUser := ""
  ValidatedUserUID := 0
  ValidatedUserGID := 0
  UserHomeDir := ""
  DefaultBuildsDir := "$PWD/builds"
  DefaultCacheDir := "$PWD/cache"
  ShellUser := ""
  Printed := []

/-- Sample environment: the sample users, working directory `/srv`, `os.Expand` on the
two default templates, no failing `MkdirAll` or `Chown`, a runner process running as
root, and a host framework whose `Prepare` succeeds. -/
def sampleEnv : Env where
  users := sampleUsers
  Getwd := some "/srv"
  Expand := fun t mp =>
    if t = "$PWD/builds" then mp "PWD" ++ "/builds"
    else if t = "$PWD/cache" then mp "PWD" ++ "/cache"
    else t
  mkdirFails := fun _ => false
  chownFails := fun _ => false
  euid := 0
  egid := 0
  AbstractPrepare := fun s _ => (.ok, s)

/-- The fresh executor after `alice` has been validated. -/
def aliceExecutor : executor :=
  { freshExecutor with
    ValidatedUser := "alice"
    ValidatedUserUID := 1000
    ValidatedUserGID := 1000
    UserHomeDir := "/home/alice" }

/-- Sample scheduler: session, template and submission succeed (job id `42`), the status
query before the loop answers `QueuedActive`, every later status query fails, and the
wait succeeds. -/
def flakyScheduler : HPC.Scheduler where
  MakeSession := none
  AllocateJobTemplate := none
  RunJob := .ok "42"
  JobPs := fun n =>
    if n = 0 then (.PsQueuedActive, none) else (.PsUndetermined, some "communication failure")
  Wait := none

/-- Sample scheduler whose wait fails after the job is seen running at the second
status query. -/
def waitFailsScheduler : HPC.Scheduler where
  MakeSession := none
  AllocateJobTemplate := none
  RunJob := .ok "42"
  JobPs := fun n => if n = 0 then (.PsQueuedActive, none) else (.PsRunning, none)
  Wait := some "job killed"


/-! ## Membership tests -/

theorem containsLoop_iff (list : List String) (item : String) :
    containsLoop list item = true ↔ item ∈ list := by
  induction list with
  | nil => simp [containsLoop]
  | cons x xs ih =>
    by_cases h : x = item
    · simp [containsLoop, h]
    · have h2 : ¬ item = x := fun e => h e.symm
      simp [containsLoop, h, h2, ih]

theorem contains_iff (list : List String) (item : String) :
    contains list item = true ↔ item ∈ list := by
  cases list with
  | nil => simp [contains]
  | cons x xs => simp only [contains, List.length_cons, Nat.succ_ne_zero, if_false,
      containsLoop_iff]

theorem contains_eq_decide (list : List String) (item : String) :
    contains list item = decide (item ∈ list) := by
  by_cases h : item ∈ list
  · simp [h, (contains_iff list item).2 h]
  · have : contains list item ≠ true := fun e => h ((contains_iff list item).1 e)
    simp [h, this]

theorem whitelistLoop_iff (groupWhitelist userGroups : List String) :
    whitelistLoop groupWhitelist userGroups = true ↔
      ∃ g, g ∈ userGroups ∧ g ∈ groupWhitelist := by
  induction userGroups with
  | nil => simp [whitelistLoop]
  | cons g gs ih =>
    by_cases h : g ∈ groupWhitelist
    · simp [whitelistLoop, contains_eq_decide, h]
    · simp [whitelistLoop, contains_eq_decide, h, ih]

theorem CheckGroupWhitelist_iff (groupWhitelist userGroups : List String) :
    CheckGroupWhitelist groupWhitelist userGroups = true ↔
      ∃ g, g ∈ userGroups ∧ g ∈ groupWhitelist := by
  cases groupWhitelist with
  | nil => simp [CheckGroupWhitelist]
  | cons w ws => simp [CheckGroupWhitelist, whitelistLoop_iff]

theorem blacklistLoop_eq (groupBlacklist userGroups sharedGroups : List String) :
    blacklistLoop groupBlacklist userGroups sharedGroups =
      sharedGroups ++ userGroups.filter fun g => decide (g ∈ groupBlacklist) := by
  induction userGroups generalizing sharedGroups with
  | nil => simp [blacklistLoop]
  | cons g gs ih =>
    by_cases h : g ∈ groupBlacklist
    · simp [blacklistLoop, contains_eq_decide, h, ih]
    · simp [blacklistLoop, contains_eq_decide, h, ih]

theorem CheckGroupBlacklist_snd (groupBlacklist userGroups : List String) :
    (CheckGroupBlacklist groupBlacklist userGroups).2 =
      userGroups.filter fun g => decide (g ∈ groupBlacklist) := by
  cases groupBlacklist with
  | nil => simp [CheckGroupBlacklist]
  | cons b bs =>
    simp only [CheckGroupBlacklist, List.length_cons, Nat.succ_ne_zero, if_false,
      blacklistLoop_eq, List.nil_append]
    split <;> rfl

theorem CheckGroupBlacklist_fst (groupBlacklist userGroups : List String) :
    (CheckGroupBlacklist groupBlacklist userGroups).1 = true ↔
      ∃ g, g ∈ userGroups ∧ g ∈ groupBlacklist := by
  cases groupBlacklist with
  | nil => simp [CheckGroupBlacklist]
  | cons b bs =>
    simp only [CheckGroupBlacklist, List.length_cons, Nat.succ_ne_zero, if_false,
      blacklistLoop_eq, List.nil_append]
    split
    · rename_i h
      simp only [true_iff]
      obtain ⟨g, hg⟩ := List.exists_mem_of_length_pos h
      rw [List.mem_filter] at hg
      exact ⟨g, hg.1, by simpa using hg.2⟩
    · rename_i h
      simp only [Bool.false_eq_true, false_iff]
      rintro ⟨g, hg, hb⟩
      apply h
      have hmem : g ∈ List.filter (fun g => decide (g ∈ b :: bs)) userGroups := by
        rw [List.mem_filter]
        exact ⟨hg, by simpa using hb⟩
      exact List.length_pos_of_mem hmem

/-! ## File system: `CreateDirectory` -/

theorem stat_nil (dir : String) : stat [] dir = none := rfl

theorem stat_cons (p : String) (st : Stat) (rest : FS) (dir : String) :
    stat ((p, st) :: rest) dir = if p = dir then some st else stat rest dir := rfl

theorem Chown_cons (p : String) (st : Stat) (rest : FS) (dir : String) (uid gid : Nat) :
    Chown ((p, st) :: rest) dir uid gid =
      (if p = dir then (p, { st with Uid := uid, Gid := gid }) else (p, st)) ::
        Chown rest dir uid gid := rfl

theorem stat_Chown (fs : FS) (dir q : String) (uid gid : Nat) :
    stat (Chown fs dir uid gid) q =
      (stat fs q).map fun st => if q = dir then { st with Uid := uid, Gid := gid } else st := by
  induction fs with
  | nil => rfl
  | cons e rest ih =>
    obtain ⟨p, st⟩ := e
    rw [Chown_cons, stat_cons]
    by_cases hp : p = dir
    · by_cases hq : p = q
      · subst hp; subst hq
        simp [stat_cons]
      · rw [if_pos hp, stat_cons, if_neg hq, if_neg hq, ih]
    · by_cases hq : p = q
      · have hqd : ¬ q = dir := fun e => hp (hq.trans e)
        rw [if_neg hp, stat_cons, if_pos hq, if_pos hq]
        simp [hqd]
      · rw [if_neg hp, stat_cons, if_neg hq, if_neg hq, ih]

theorem stat_Chown_isSome (fs : FS) (dir q : String) (uid gid : Nat) :
    (stat (Chown fs dir uid gid) q).isSome = (stat fs q).isSome := by
  rw [stat_Chown, Option.isSome_map']

/-- Unfolding of `CreateDirectory` on a missing path. -/
theorem CreateDirectory_of_missing (env : Env) (fs : FS) (dir : String)
    (owner group mode : Nat) (h : stat fs dir = none) :
    CreateDirectory env fs dir owner group mode =
      if env.mkdirFails dir then (some (.mkdir dir), fs)
      else if env.chownFails dir then
        (some (.chown dir), (dir, ⟨env.euid, env.egid, mode⟩) :: fs)
      else (none, Chown ((dir, ⟨env.euid, env.egid, mode⟩) :: fs) dir owner group) := by
  simp only [CreateDirectory, h, EnsureOwnership, MkdirAll]

theorem CreateDirectory_of_exists (env : Env) (fs : FS) (dir : String) (owner group mode : Nat)
    (h : (stat fs dir).isSome = true) :
    CreateDirectory env fs dir owner group mode = (none, fs) := by
  unfold CreateDirectory
  cases hs : stat fs dir with
  | none => rw [hs] at h; exact absurd h (by simp)
  | some st => rfl

theorem CreateDirectory_exists_of_ok (env : Env) (fs : FS) (dir : String)
    (owner group mode : Nat) (h : (CreateDirectory env fs dir owner group mode).1 = none) :
    (stat (CreateDirectory env fs dir owner group mode).2 dir).isSome = true := by
  cases hs : stat fs dir with
  | none =>
    rw [CreateDirectory_of_missing env fs dir owner group mode hs] at h ⊢
    split_ifs at h ⊢ with hm hc
    · show (stat (Chown ((dir, ⟨env.euid, env.egid, mode⟩) :: fs) dir owner group) dir).isSome
        = true
      rw [stat_Chown_isSome, stat_cons, if_pos rfl]
      rfl
  | some st =>
    rw [CreateDirectory_of_exists env fs dir owner group mode (by rw [hs]; rfl), hs]
    rfl

theorem CreateDirectory_mono (env : Env) (fs : FS) (dir q : String) (owner group mode : Nat)
    (h : (stat fs q).isSome = true) :
    (stat (CreateDirectory env fs dir owner group mode).2 q).isSome = true := by
  cases hs : stat fs dir with
  | none =>
    have hq : ¬ dir = q := by
      intro e
      rw [e] at hs
      rw [hs] at h
      exact absurd h (by simp)
    rw [CreateDirectory_of_missing env fs dir owner group mode hs]
    split_ifs with hm hc
    · exact h
    · show (stat ((dir, ⟨env.euid, env.egid, mode⟩) :: fs) q).isSome = true
      rw [stat_cons, if_neg hq]
      exact h
    · show (stat (Chown ((dir, ⟨env.euid, env.egid, mode⟩) :: fs) dir owner group) q).isSome
        = true
      rw [stat_Chown_isSome, stat_cons, if_neg hq]
      exact h
  | some st =>
    rw [CreateDirectory_of_exists env fs dir owner group mode (by rw [hs]; rfl)]
    exact h

theorem CreateDirectory_exists_of_succeeds (env : Env) (fs : FS) (dir : String)
    (owner group mode : Nat)
    (h : (CreateDirectory env fs dir owner group mode).1.isSome = false) :
    (stat (CreateDirectory env fs dir owner group mode).2 dir).isSome = true := by
  apply CreateDirectory_exists_of_ok
  cases hr : (CreateDirectory env fs dir owner group mode).1 with
  | none => rfl
  | some e => rw [hr] at h; exact absurd h (by simp)

/-! ## Identity validator: the policy rules -/

/-- The decision of `ValidateUser` for an identity whose OS lookups succeed, as a
chain over list membership. -/
theorem ValidateUser_of_resolves (db : UserDB) (s : executor) (options : ExecutorPrepareOptions)
    (usr : User) (groups : List String)
    (hid : Resolves db (options.Variables "GITLAB_USER_LOGIN") usr groups) :
    ValidateUser db s options =
      if options.Variables "GITLAB_USER_LOGIN" ∈ options.Runner.SetUIDUserWhitelist then
        (.ok, recordValidated s (options.Variables "GITLAB_USER_LOGIN") usr)
      else if options.Variables "GITLAB_USER_LOGIN" ∈ options.Runner.SetUIDUserBlacklist then
        (.failed (.userBlacklisted (options.Variables "GITLAB_USER_LOGIN")), s)
      else if (CheckGroupBlacklist options.Runner.SetUIDGroupBlacklist groups).1 then
        (.failed (.groupBlacklisted (options.Variables "GITLAB_USER_LOGIN")
          (CheckGroupBlacklist options.Runner.SetUIDGroupBlacklist groups).2), s)
      else if CheckGroupWhitelist options.Runner.SetUIDGroupWhitelist groups then
        (.ok, recordValidated s (options.Variables "GITLAB_USER_LOGIN") usr)
      else if options.Runner.SetUIDGroupWhitelist = [] then
        (.ok, recordValidated s (options.Variables "GITLAB_USER_LOGIN") usr)
      else (.failed (.notInGroupWhitelist (options.Variables "GITLAB_USER_LOGIN")), s) := by
  obtain ⟨h1, h2, h3⟩ := hid
  simp only [ValidateUser, h1, h2, h3, contains_eq_decide, decide_eq_true_eq,
    Bool.false_eq_true, if_false]
  split
  · rfl
  split
  · rfl
  split
  · rfl
  split
  · rfl
  rename_i hcw
  cases hw : options.Runner.SetUIDGroupWhitelist with
  | nil => simp
  | cons w ws =>
    rw [hw] at hcw
    simp [hcw]

/-- C1: a login on the user whitelist whose OS lookups succeed is validated, and the
login, uid, gid and home directory are recorded, whatever the user blacklist, the group
lists and the groups of the identity contain. -/
theorem ValidateUser_user_whitelist (db : UserDB) (s : executor)
    (options : ExecutorPrepareOptions) (usr : User) (groups : List String)
    (hid : Resolves db (options.Variables "GITLAB_USER_LOGIN") usr groups)
    (hwl : options.Variables "GITLAB_USER_LOGIN" ∈ options.Runner.SetUIDUserWhitelist) :
    ValidateUser db s options =
      (.ok, { s with
        ValidatedUser := options.Variables "GITLAB_USER_LOGIN"
        ValidatedUserUID := usr.Uid
        ValidatedUserGID := usr.Gid
        UserHomeDir := usr.HomeDir }) := by
  rw [ValidateUser_of_resolves db s options usr groups hid, if_pos hwl]
  rfl

/-- Instance at the sample data: `alice` is on the user whitelist, on the user blacklist
and in the blacklisted group `finance`, and is validated. -/
theorem ValidateUser_user_whitelist_witness :
    Resolves sampleUsers "alice" ⟨1000, 1000, "/home/alice"⟩ ["eng", "finance"] ∧
    "alice" ∈ ["alice"] ∧
    ValidateUser sampleUsers freshExecutor
        (sampleOptions "alice" "" ["alice"] ["alice"] ["ops"] ["finance"]) =
      (.ok, { freshExecutor with
        ValidatedUser := "alice"
        ValidatedUserUID := 1000
        ValidatedUserGID := 1000
        UserHomeDir := "/home/alice" }) :=
  ⟨⟨rfl, rfl, rfl⟩, by decide,
    ValidateUser_user_whitelist sampleUsers freshExecutor
      (sampleOptions "alice" "" ["alice"] ["alice"] ["ops"] ["finance"])
      ⟨1000, 1000, "/home/alice"⟩ ["eng", "finance"] ⟨rfl, rfl, rfl⟩ (by decide)⟩

/-- C2: an identity on neither user list that belongs to a group on the group blacklist
is denied, and the groups the error lists (the second result of `CheckGroupBlacklist`)
are exactly the groups of the identity that are on the group blacklist, in the order of
the identity's groups. -/
theorem ValidateUser_group_blacklist (db : UserDB) (s : executor)
    (options : ExecutorPrepareOptions) (usr : User) (groups : List String)
    (hid : Resolves db (options.Variables "GITLAB_USER_LOGIN") usr groups)
    (hwl : options.Variables "GITLAB_USER_LOGIN" ∉ options.Runner.SetUIDUserWhitelist)
    (hbl : options.Variables "GITLAB_USER_LOGIN" ∉ options.Runner.SetUIDUserBlacklist)
    (hgb : ∃ g, g ∈ groups ∧ g ∈ options.Runner.SetUIDGroupBlacklist) :
    ValidateUser db s options =
        (.failed (.groupBlacklisted (options.Variables "GITLAB_USER_LOGIN")
          (CheckGroupBlacklist options.Runner.SetUIDGroupBlacklist groups).2), s) ∧
      (∀ g, g ∈ (CheckGroupBlacklist options.Runner.SetUIDGroupBlacklist groups).2 ↔
        g ∈ groups ∧ g ∈ options.Runner.SetUIDGroupBlacklist) ∧
      (CheckGroupBlacklist options.Runner.SetUIDGroupBlacklist groups).2 =
        groups.filter fun g => decide (g ∈ options.Runner.SetUIDGroupBlacklist) := by
  refine ⟨?_, ?_, CheckGroupBlacklist_snd _ _⟩
  · rw [ValidateUser_of_resolves db s options usr groups hid, if_neg hwl, if_neg hbl,
      if_pos ((CheckGroupBlacklist_fst _ _).2 hgb)]
  · intro g
    rw [CheckGroupBlacklist_snd, List.mem_filter]
    simp

/-- Instance at the sample data: group blacklist `finance`, `alice` in `eng` and
`finance`, denied with exactly `finance` listed. -/
theorem ValidateUser_group_blacklist_witness :
    Resolves sampleUsers "alice" ⟨1000, 1000, "/home/alice"⟩ ["eng", "finance"] ∧
    ValidateUser sampleUsers freshExecutor
        (sampleOptions "alice" "" [] [] ["eng"] ["finance"]) =
      (.failed (.groupBlacklisted "alice" ["finance"]), freshExecutor) :=
  ⟨⟨rfl, rfl, rfl⟩,
    (ValidateUser_group_blacklist sampleUsers freshExecutor
      (sampleOptions "alice" "" [] [] ["eng"] ["finance"])
      ⟨1000, 1000, "/home/alice"⟩ ["eng", "finance"] ⟨rfl, rfl, rfl⟩ (by decide) (by decide)
      ⟨"finance", by decide, by decide⟩).1⟩

/-- C3 (as amended): a login on the user blacklist and not on the user whitelist is
never validated and the executor records no validated identity (it is returned
unchanged). When its OS lookups succeed the error is the user-denied one, whatever its
groups and the group whitelist and group blacklist contain; when `user.Lookup` does not
find the login the error is the lookup error, since the lookup runs before any list is
consulted. -/
theorem ValidateUser_user_blacklist (db : UserDB) (s : executor)
    (options : ExecutorPrepareOptions)
    (hwl : options.Variables "GITLAB_USER_LOGIN" ∉ options.Runner.SetUIDUserWhitelist)
    (hbl : options.Variables "GITLAB_USER_LOGIN" ∈ options.Runner.SetUIDUserBlacklist) :
    (ValidateUser db s options).1 ≠ .ok ∧ (ValidateUser db s options).2 = s ∧
      (∀ usr groups, Resolves db (options.Variables "GITLAB_USER_LOGIN") usr groups →
        ValidateUser db s options =
          (.failed (.userBlacklisted (options.Variables "GITLAB_USER_LOGIN")), s)) ∧
      (db.Lookup (options.Variables "GITLAB_USER_LOGIN") = none →
        ValidateUser db s options =
          (.failed (.userLookup (options.Variables "GITLAB_USER_LOGIN")), s)) := by
  refine ⟨?_, ?_, ?_, ?_⟩
  · unfold ValidateUser
    simp only [contains_eq_decide, hwl, hbl, decide_True, decide_False, if_true,
      Bool.false_eq_true, if_false]
    split
    · simp
    split
    · simp
    split <;> simp
  · unfold ValidateUser
    simp only [contains_eq_decide, hwl, hbl, decide_True, decide_False, if_true,
      Bool.false_eq_true, if_false]
    split
    · rfl
    split
    · rfl
    split <;> rfl
  · intro usr groups hid
    rw [ValidateUser_of_resolves db s options usr groups hid, if_neg hwl, if_pos hbl]
  · intro hnone
    simp only [ValidateUser, hnone]

/-- Instance at the sample data: `bob` is blacklisted and his group `eng` is on the
group whitelist; he is denied with the user-denied error. -/
theorem ValidateUser_user_blacklist_witness :
    "bob" ∉ ([] : List String) ∧ "bob" ∈ ["bob"] ∧
    Resolves sampleUsers "bob" ⟨1001, 1001, "/home/bob"⟩ ["eng"] ∧ "eng" ∈ ["eng"] ∧
    ValidateUser sampleUsers freshExecutor (sampleOptions "bob" "" [] ["bob"] ["eng"] []) =
      (.failed (.userBlacklisted "bob"), freshExecutor) :=
  ⟨by decide, by decide, ⟨rfl, rfl, rfl⟩, by decide,
    (ValidateUser_user_blacklist sampleUsers freshExecutor
      (sampleOptions "bob" "" [] ["bob"] ["eng"] []) (by decide) (by decide)).2.2.1
      ⟨1001, 1001, "/home/bob"⟩ ["eng"] ⟨rfl, rfl, rfl⟩⟩

/-- C3 as first stated fails: `mallory` is on the user blacklist and not on the user
whitelist but is unknown to the OS user database, and `ValidateUser` returns the lookup
error, not the user-denied error. Hence the user-denied error does not follow from the
two list conditions alone. -/
theorem ValidateUser_user_blacklist_unknown_login :
    "mallory" ∉ ([] : List String) ∧ "mallory" ∈ ["mallory"] ∧
    ValidateUser sampleUsers freshExecutor
        (sampleOptions "mallory" "" [] ["mallory"] [] []) =
      (.failed (.userLookup "mallory"), freshExecutor) ∧
    ¬ ∀ (db : UserDB) (s : executor) (options : ExecutorPrepareOptions),
        options.Variables "GITLAB_USER_LOGIN" ∉ options.Runner.SetUIDUserWhitelist →
        options.Variables "GITLAB_USER_LOGIN" ∈ options.Runner.SetUIDUserBlacklist →
        (ValidateUser db s options).1 =
          .failed (.userBlacklisted (options.Variables "GITLAB_USER_LOGIN")) := by
  refine ⟨by decide, by decide, by decide, ?_⟩
  intro h
  have h2 := h sampleUsers freshExecutor (sampleOptions "mallory" "" [] ["mallory"] [] [])
    (by decide) (by decide)
  revert h2
  decide

/-- C4: for an identity on neither user list none of whose groups is on the group
blacklist, validation succeeds exactly when the group whitelist is empty or holds one of
the identity's groups, recording the identity then; with a non-empty group whitelist
holding none of its groups it is denied with the not-in-group-whitelist error; and with
all four lists empty it is allowed. -/
theorem ValidateUser_group_whitelist (db : UserDB) (s : executor)
    (options : ExecutorPrepareOptions) (usr : User) (groups : List String)
    (hid : Resolves db (options.Variables "GITLAB_USER_LOGIN") usr groups)
    (hwl : options.Variables "GITLAB_USER_LOGIN" ∉ options.Runner.SetUIDUserWhitelist)
    (hbl : options.Variables "GITLAB_USER_LOGIN" ∉ options.Runner.SetUIDUserBlacklist)
    (hgb : ∀ g, g ∈ groups → g ∉ options.Runner.SetUIDGroupBlacklist) :
    ((ValidateUser db s options).1 = .ok ↔
        (options.Runner.SetUIDGroupWhitelist = [] ∨
          ∃ g, g ∈ groups ∧ g ∈ options.Runner.SetUIDGroupWhitelist)) ∧
      ((options.Runner.SetUIDGroupWhitelist = [] ∨
          ∃ g, g ∈ groups ∧ g ∈ options.Runner.SetUIDGroupWhitelist) →
        ValidateUser db s options =
          (.ok, { s with
            ValidatedUser := options.Variables "GITLAB_USER_LOGIN"
            ValidatedUserUID := usr.Uid
            ValidatedUserGID := usr.Gid
            UserHomeDir := usr.HomeDir })) ∧
      (options.Runner.SetUIDGroupWhitelist ≠ [] →
        (∀ g, g ∈ groups → g ∉ options.Runner.SetUIDGroupWhitelist) →
        ValidateUser db s options =
          (.failed (.notInGroupWhitelist (options.Variables "GITLAB_USER_LOGIN")), s)) ∧
      (options.Runner.SetUIDUserWhitelist = [] → options.Runner.SetUIDUserBlacklist = [] →
        options.Runner.SetUIDGroupWhitelist = [] → options.Runner.SetUIDGroupBlacklist = [] →
        (ValidateUser db s options).1 = .ok) := by
  have hnb : ¬ (CheckGroupBlacklist options.Runner.SetUIDGroupBlacklist groups).1 = true := by
    rw [CheckGroupBlacklist_fst]
    rintro ⟨g, hg, hb⟩
    exact hgb g hg hb
  have key := ValidateUser_of_resolves db s options usr groups hid
  rw [if_neg hwl, if_neg hbl, if_neg hnb] at key
  have hallow : (options.Runner.SetUIDGroupWhitelist = [] ∨
      ∃ g, g ∈ groups ∧ g ∈ options.Runner.SetUIDGroupWhitelist) →
      ValidateUser db s options =
        (.ok, recordValidated s (options.Variables "GITLAB_USER_LOGIN") usr) := by
    intro h
    rw [key]
    by_cases hw : CheckGroupWhitelist options.Runner.SetUIDGroupWhitelist groups = true
    · rw [if_pos hw]
    · rw [if_neg hw]
      rcases h with h | h
      · rw [if_pos h]
      · exact absurd ((CheckGroupWhitelist_iff _ _).2 h) hw
  have hdeny : options.Runner.SetUIDGroupWhitelist ≠ [] →
      (∀ g, g ∈ groups → g ∉ options.Runner.SetUIDGroupWhitelist) →
      ValidateUser db s options =
        (.failed (.notInGroupWhitelist (options.Variables "GITLAB_USER_LOGIN")), s) := by
    intro hne hno
    have hw : ¬ CheckGroupWhitelist options.Runner.SetUIDGroupWhitelist groups = true := by
      rw [CheckGroupWhitelist_iff]
      rintro ⟨g, hg, hb⟩
      exact hno g hg hb
    rw [key, if_neg hw, if_neg hne]
  refine ⟨⟨?_, fun h => by rw [hallow h]⟩, hallow, hdeny, fun _ _ h _ => by rw [hallow (Or.inl h)]⟩
  intro hok
  by_contra hcon
  push_neg at hcon
  rw [hdeny hcon.1 hcon.2] at hok
  exact absurd hok (by simp)

/-- Instance at the sample data: all four lists empty, `alice` is allowed. -/
theorem ValidateUser_group_whitelist_witness :
    Resolves sampleUsers "alice" ⟨1000, 1000, "/home/alice"⟩ ["eng", "finance"] ∧
    (ValidateUser sampleUsers freshExecutor (sampleOptions "alice" "" [] [] [] [])).1 = .ok :=
  ⟨⟨rfl, rfl, rfl⟩,
    (ValidateUser_group_whitelist sampleUsers freshExecutor
      (sampleOptions "alice" "" [] [] [] [])
      ⟨1000, 1000, "/home/alice"⟩ ["eng", "finance"] ⟨rfl, rfl, rfl⟩ (by decide) (by decide)
      (by decide)).2.2.2 rfl rfl rfl rfl⟩

/-! ## Front door: validation is a hard gate -/

/-- An error return of `ValidateUser` leaves the executor unchanged. -/
theorem ValidateUser_failed_state (db : UserDB) (s : executor)
    (options : ExecutorPrepareOptions) (e : Error)
    (h : (ValidateUser db s options).1 = .failed e) : (ValidateUser db s options).2 = s := by
  unfold ValidateUser at h ⊢
  simp only at h ⊢
  repeat' split
  all_goals first
    | rfl
    | (rename_i heq; rw [heq] at h; simp at h; done)
    | skip
  all_goals simp_all

/-- C5: in SetUID mode, whenever `ValidateUser` returns an error, `prepareSetUID` returns
an error that wraps it and `Prepare` returns an error, `PrepareSetUIDDirectories` having
had no effect: the file system is unchanged (no directory is created) and the executor
is unchanged, so its build and cache directories are the ones it had and its shell user
is not set. -/
theorem prepareSetUID_validation_gate (env : Env) (s : executor) (fs : FS)
    (options : ExecutorPrepareOptions) (mp : String → String) (e : Error)
    (hsetuid : options.Runner.SetUID = true)
    (hinvalid : (ValidateUser env.users s options).1 = .failed e) :
    prepareSetUID env s fs options mp = (.failed (.userNotValid e), s, fs) ∧
      (∀ wd, env.Getwd = some wd →
        Prepare env s fs options = (.failed (.couldNotPrepare (.userNotValid e)), s, fs)) ∧
      ∃ err, Prepare env s fs options = (.failed err, s, fs) := by
  have hs := ValidateUser_failed_state env.users s options e hinvalid
  have h1 : ∀ m, prepareSetUID env s fs options m = (.failed (.userNotValid e), s, fs) := by
    intro m
    simp only [prepareSetUID, hinvalid, hs]
  have h2 : ∀ wd, env.Getwd = some wd →
      Prepare env s fs options = (.failed (.couldNotPrepare (.userNotValid e)), s, fs) := by
    intro wd hwd
    simp only [Prepare, hwd, hsetuid, if_true, h1]
  refine ⟨h1 mp, h2, ?_⟩
  cases hwd : env.Getwd with
  | none => exact ⟨.getwd, by simp only [Prepare, hwd]⟩
  | some wd => exact ⟨_, h2 wd hwd⟩

/-- Instance at the sample data: `bob` is blacklisted, `prepareSetUID` fails and
leaves executor and file system as they were. -/
theorem prepareSetUID_validation_gate_witness :
    (ValidateUser sampleEnv.users freshExecutor
        (sampleOptions "bob" "" [] ["bob"] ["eng"] [])).1 = .failed (.userBlacklisted "bob") ∧
      prepareSetUID sampleEnv freshExecutor []
          (sampleOptions "bob" "" [] ["bob"] ["eng"] []) (mapping "/srv") =
        (.failed (.userNotValid (.userBlacklisted "bob")), freshExecutor, []) :=
  ⟨by decide,
    (prepareSetUID_validation_gate sampleEnv freshExecutor []
      (sampleOptions "bob" "" [] ["bob"] ["eng"] []) (mapping "/srv") (.userBlacklisted "bob")
      rfl (by decide)).1⟩

/-- Once validation succeeds `prepareSetUID` returns no error and sets the shell user to
the validated user, whatever `PrepareSetUIDDirectories` returns. -/
theorem prepareSetUID_ok_of_valid (env : Env) (s : executor) (fs : FS)
    (options : ExecutorPrepareOptions) (mp : String → String)
    (hvalid : (ValidateUser env.users s options).1 = .ok) :
    (prepareSetUID env s fs options mp).1 = .ok ∧
      (prepareSetUID env s fs options mp).2.1.ShellUser =
        (PrepareSetUIDDirectories env (ValidateUser env.users s options).2 fs options
          mp).2.1.ValidatedUser := by
  simp only [prepareSetUID, hvalid, and_self]

/-! ## Directory provisioner: idempotence -/

theorem isSome_or_false {a b : Option OSError} (h : ¬ (a.isSome || b.isSome) = true) :
    a = none ∧ b = none := by
  cases a <;> cases b <;> simp_all

theorem prepareHome_ok (env : Env) (s s1 : executor) (fs fs1 : FS)
    (h : prepareHome env s fs = (none, s1, fs1)) :
    s1 = { s with
        DefaultBuildsDir := s.UserHomeDir ++ "/.gitlab-runner/" ++ "/builds"
        DefaultCacheDir := s.UserHomeDir ++ "/.gitlab-runner/" ++ "/cache" } ∧
      (stat fs1 (s.UserHomeDir ++ "/.gitlab-runner/")).isSome = true ∧
      (stat fs1 (s.UserHomeDir ++ "/.gitlab-runner/" ++ "/builds")).isSome = true ∧
      (stat fs1 (s.UserHomeDir ++ "/.gitlab-runner/" ++ "/cache")).isSome = true := by
  unfold prepareHome at h
  simp only at h
  split_ifs at h with hc
  · simp at h
  · simp only [Prod.mk.injEq, true_and] at h
    obtain ⟨hs, hfs⟩ := h
    simp only [Bool.or_eq_true, not_or, Bool.not_eq_true] at hc
    obtain ⟨⟨hb, hc⟩, hr⟩ := hc
    subst hs; subst hfs
    refine ⟨rfl, ?_, ?_, ?_⟩
    · exact CreateDirectory_mono _ _ _ _ _ _ _
        (CreateDirectory_mono _ _ _ _ _ _ _ (CreateDirectory_exists_of_succeeds _ _ _ _ _ _ hr))
    · exact CreateDirectory_mono _ _ _ _ _ _ _ (CreateDirectory_exists_of_succeeds _ _ _ _ _ _ hb)
    · exact CreateDirectory_exists_of_succeeds _ _ _ _ _ _ hc

theorem prepareHome_of_exists (env : Env) (s : executor) (fs : FS)
    (h1 : (stat fs (s.UserHomeDir ++ "/.gitlab-runner/")).isSome = true)
    (h2 : (stat fs (s.UserHomeDir ++ "/.gitlab-runner/" ++ "/builds")).isSome = true)
    (h3 : (stat fs (s.UserHomeDir ++ "/.gitlab-runner/" ++ "/cache")).isSome = true) :
    prepareHome env s fs =
      (none, { s with
        DefaultBuildsDir := s.UserHomeDir ++ "/.gitlab-runner/" ++ "/builds"
        DefaultCacheDir := s.UserHomeDir ++ "/.gitlab-runner/" ++ "/cache" }, fs) := by
  unfold prepareHome
  simp only [CreateDirectory_of_exists, h1, h2, h3]
  rfl

theorem prepareTree_ok (env : Env) (s s1 : executor) (fs fs1 : FS)
    (groupDir projectName : String) (gid mode : Nat)
    (h : prepareTree env s fs groupDir projectName gid mode = (none, s1, fs1)) :
    s1 = { s with
        DefaultBuildsDir :=
          groupDir ++ "/" ++ projectName ++ "/" ++ "builds" ++ "/" ++ "users" ++ "/" ++
            s.ValidatedUser
        DefaultCacheDir :=
          groupDir ++ "/" ++ projectName ++ "/" ++ "cache" ++ "/" ++ "users" ++ "/" ++
            s.ValidatedUser } ∧
      (stat fs1 groupDir).isSome = true ∧
      (stat fs1 (groupDir ++ "/" ++ projectName)).isSome = true ∧
      (stat fs1 (groupDir ++ "/" ++ projectName ++ "/" ++ "builds")).isSome = true ∧
      (stat fs1 (groupDir ++ "/" ++ projectName ++ "/" ++ "cache")).isSome = true ∧
      (stat fs1 (groupDir ++ "/" ++ projectName ++ "/" ++ "builds" ++ "/" ++ "users")).isSome
        = true ∧
      (stat fs1 (groupDir ++ "/" ++ projectName ++ "/" ++ "cache" ++ "/" ++ "users")).isSome
        = true ∧
      (stat fs1 (groupDir ++ "/" ++ projectName ++ "/" ++ "builds" ++ "/" ++ "users" ++ "/" ++
        s.ValidatedUser)).isSome = true ∧
      (stat fs1 (groupDir ++ "/" ++ projectName ++ "/" ++ "cache" ++ "/" ++ "users" ++ "/" ++
        s.ValidatedUser)).isSome = true := by
  unfold prepareTree at h
  simp only at h
  split at h
  · simp at h
  rename_i hg
  split at h
  · simp at h
  rename_i hp
  split_ifs at h with hbc hu hv
  · simp at h
  · simp at h
  · simp at h
  simp only [Prod.mk.injEq, true_and] at h
  obtain ⟨hs, hfs⟩ := h
  simp only [Bool.or_eq_true, not_or, Bool.not_eq_true] at hbc hu hv
  have hg2 := CreateDirectory_exists_of_ok _ _ _ _ _ _ hg
  have hp2 := CreateDirectory_exists_of_ok _ _ _ _ _ _ hp
  have hb2 := CreateDirectory_exists_of_succeeds _ _ _ _ _ _ hbc.2
  have hc2 := CreateDirectory_exists_of_succeeds _ _ _ _ _ _ hbc.1
  have hub2 := CreateDirectory_exists_of_succeeds _ _ _ _ _ _ hu.1
  have huc2 := CreateDirectory_exists_of_succeeds _ _ _ _ _ _ hu.2
  have hvb2 := CreateDirectory_exists_of_succeeds _ _ _ _ _ _ hv.1
  have hvc2 := CreateDirectory_exists_of_succeeds _ _ _ _ _ _ hv.2
  subst hs; subst hfs
  refine ⟨rfl, ?_, ?_, ?_, ?_, ?_, ?_, ?_, hvc2⟩
  · iterate 7 apply CreateDirectory_mono
    exact hg2
  · iterate 6 apply CreateDirectory_mono
    exact hp2
  · iterate 5 apply CreateDirectory_mono
    exact hb2
  · iterate 4 apply CreateDirectory_mono
    exact hc2
  · iterate 3 apply CreateDirectory_mono
    exact hub2
  · iterate 2 apply CreateDirectory_mono
    exact huc2
  · apply CreateDirectory_mono
    exact hvb2

theorem prepareTree_of_exists (env : Env) (s : executor) (fs : FS)
    (groupDir projectName : String) (gid mode : Nat)
    (h1 : (stat fs groupDir).isSome = true)
    (h2 : (stat fs (groupDir ++ "/" ++ projectName)).isSome = true)
    (h3 : (stat fs (groupDir ++ "/" ++ projectName ++ "/" ++ "builds")).isSome = true)
    (h4 : (stat fs (groupDir ++ "/" ++ projectName ++ "/" ++ "cache")).isSome = true)
    (h5 : (stat fs (groupDir ++ "/" ++ projectName ++ "/" ++ "builds" ++ "/" ++
      "users")).isSome = true)
    (h6 : (stat fs (groupDir ++ "/" ++ projectName ++ "/" ++ "cache" ++ "/" ++
      "users")).isSome = true)
    (h7 : (stat fs (groupDir ++ "/" ++ projectName ++ "/" ++ "builds" ++ "/" ++ "users" ++
      "/" ++ s.ValidatedUser)).isSome = true)
    (h8 : (stat fs (groupDir ++ "/" ++ projectName ++ "/" ++ "cache" ++ "/" ++ "users" ++
      "/" ++ s.ValidatedUser)).isSome = true) :
    prepareTree env s fs groupDir projectName gid mode =
      (none, { s with
        DefaultBuildsDir :=
          groupDir ++ "/" ++ projectName ++ "/" ++ "builds" ++ "/" ++ "users" ++ "/" ++
            s.ValidatedUser
        DefaultCacheDir :=
          groupDir ++ "/" ++ projectName ++ "/" ++ "cache" ++ "/" ++ "users" ++ "/" ++
            s.ValidatedUser }, fs) := by
  unfold prepareTree
  simp only [CreateDirectory_of_exists, h1, h2, h3, h4, h5, h6, h7, h8]
  rfl

theorem prepareDefault_ok (env : Env) (s s1 : executor) (fs fs1 : FS) (mp : String → String)
    (h : prepareDefault env s fs mp = (none, s1, fs1)) :
    s1 = { s with
        DefaultBuildsDir := env.Expand s.DefaultBuildsDir mp ++ "/users/" ++ s.ValidatedUser
        DefaultCacheDir := env.Expand s.DefaultCacheDir mp ++ "/users/" ++ s.ValidatedUser } ∧
      (stat fs1 (env.Expand s.DefaultBuildsDir mp ++ "/users/")).isSome = true ∧
      (stat fs1 (env.Expand s.DefaultCacheDir mp ++ "/users/")).isSome = true ∧
      (stat fs1 (env.Expand s.DefaultBuildsDir mp ++ "/users/" ++ s.ValidatedUser)).isSome
        = true ∧
      (stat fs1 (env.Expand s.DefaultCacheDir mp ++ "/users/" ++ s.ValidatedUser)).isSome
        = true := by
  unfold prepareDefault at h
  simp only at h
  split_ifs at h with ht hu
  · simp at h
  · simp at h
  simp only [Prod.mk.injEq, true_and] at h
  obtain ⟨hs, hfs⟩ := h
  simp only [Bool.or_eq_true, not_or, Bool.not_eq_true] at ht hu
  have h1 := CreateDirectory_exists_of_succeeds _ _ _ _ _ _ ht.1
  have h2 := CreateDirectory_exists_of_succeeds _ _ _ _ _ _ ht.2
  have h3 := CreateDirectory_exists_of_succeeds _ _ _ _ _ _ hu.1
  have h4 := CreateDirectory_exists_of_succeeds _ _ _ _ _ _ hu.2
  subst hs; subst hfs
  refine ⟨rfl, ?_, ?_, ?_, h4⟩
  · iterate 3 apply CreateDirectory_mono
    exact h1
  · iterate 2 apply CreateDirectory_mono
    exact h2
  · apply CreateDirectory_mono
    exact h3

theorem prepareDefault_of_exists (env : Env) (s : executor) (fs : FS) (mp : String → String)
    (h1 : (stat fs (env.Expand s.DefaultBuildsDir mp ++ "/users/")).isSome = true)
    (h2 : (stat fs (env.Expand s.DefaultCacheDir mp ++ "/users/")).isSome = true)
    (h3 : (stat fs (env.Expand s.DefaultBuildsDir mp ++ "/users/" ++ s.ValidatedUser)).isSome
      = true)
    (h4 : (stat fs (env.Expand s.DefaultCacheDir mp ++ "/users/" ++ s.ValidatedUser)).isSome
      = true) :
    prepareDefault env s fs mp =
      (none, { s with
        DefaultBuildsDir := env.Expand s.DefaultBuildsDir mp ++ "/users/" ++ s.ValidatedUser
        DefaultCacheDir := env.Expand s.DefaultCacheDir mp ++ "/users/" ++ s.ValidatedUser },
        fs) := by
  unfold prepareDefault
  simp only [CreateDirectory_of_exists, h1, h2, h3, h4]
  rfl

theorem prepareTree_stat_mono (env : Env) (s : executor) (fs : FS)
    (groupDir projectName q : String) (gid mode : Nat) (h : (stat fs q).isSome = true) :
    (stat (prepareTree env s fs groupDir projectName gid mode).2.2 q).isSome = true := by
  unfold prepareTree
  simp only
  repeat' split
  all_goals
    simp only
    repeat apply CreateDirectory_mono
    exact h

theorem prepareDataDir_idem (env : Env) (s s1 : executor) (fs fs1 : FS)
    (options : ExecutorPrepareOptions)
    (h : prepareDataDir env s fs options = (none, s1, fs1)) :
    prepareDataDir env s fs1 options = (none, s1, fs1) := by
  unfold prepareDataDir at h
  cases hroot : stat fs options.Runner.SetUIDDataDir with
  | none => rw [hroot] at h; simp at h
  | some rootStats =>
    rw [hroot] at h
    simp only at h
    have htree : ∃ gid mode, prepareTree env s fs
        (options.Runner.SetUIDDataDir ++ options.Variables "CI_PROJECT_NAMESPACE")
        (options.Variables "CI_PROJECT_NAME") gid mode = (none, s1, fs1) := by
      split at h
      · exact ⟨_, _, h⟩
      · exact ⟨_, _, h⟩
    obtain ⟨gid, mode, htree⟩ := htree
    have hroot1 : (stat fs1 options.Runner.SetUIDDataDir).isSome = true := by
      have := prepareTree_stat_mono env s fs
        (options.Runner.SetUIDDataDir ++ options.Variables "CI_PROJECT_NAMESPACE")
        (options.Variables "CI_PROJECT_NAME") options.Runner.SetUIDDataDir gid mode
        (by rw [hroot]; rfl)
      rw [htree] at this
      exact this
    obtain ⟨hs, h1, h2, h3, h4, h5, h6, h7, h8⟩ := prepareTree_ok _ _ _ _ _ _ _ _ _ htree
    unfold prepareDataDir
    cases hroot2 : stat fs1 options.Runner.SetUIDDataDir with
    | none => rw [hroot2] at hroot1; exact absurd hroot1 (by simp)
    | some rootStats2 =>
      simp only
      cases hgrp : stat fs1
          (options.Runner.SetUIDDataDir ++ options.Variables "CI_PROJECT_NAMESPACE") with
      | none => rw [hgrp] at h1; exact absurd h1 (by simp)
      | some groupDirStats =>
        simp only
        rw [prepareTree_of_exists env s fs1 _ _ _ _ (by rw [hgrp]; rfl) h2 h3 h4 h5 h6 h7 h8, hs]

/-- C8: provisioning is idempotent. Whenever `PrepareSetUIDDirectories` succeeds from a
file system `fs`, ending in `fs1`, running it again with the same inputs on `fs1`
succeeds, reports the same build and cache directories and returns `fs1` itself: no
directory is created and owner, group and mode of every directory are unchanged. This
rests on `CreateDirectory` doing nothing and returning no error on an existing path. -/
theorem PrepareSetUIDDirectories_idempotent (env : Env) (s s1 : executor) (fs fs1 : FS)
    (options : ExecutorPrepareOptions) (mp : String → String)
    (h : PrepareSetUIDDirectories env s fs options mp = (none, s1, fs1)) :
    PrepareSetUIDDirectories env s fs1 options mp = (none, s1, fs1) ∧
      (∀ dir, (stat fs1 dir).isSome = true → ∀ owner group mode,
        CreateDirectory env fs1 dir owner group mode = (none, fs1)) := by
  refine ⟨?_, fun dir hd owner group mode => CreateDirectory_of_exists env fs1 dir owner group mode hd⟩
  unfold PrepareSetUIDDirectories at h ⊢
  split_ifs at h ⊢ with hhome hdata
  · obtain ⟨hs, h1, h2, h3⟩ := prepareHome_ok env s s1 fs fs1 h
    rw [prepareHome_of_exists env s fs1 h1 h2 h3, hs]
  · exact prepareDataDir_idem env s s1 fs fs1 options h
  · obtain ⟨hs, h1, h2, h3, h4⟩ := prepareDefault_ok env s s1 fs fs1 mp h
    rw [prepareDefault_of_exists env s fs1 mp h1 h2 h3 h4, hs]

/-- Instance at the sample data: the explicit-shared-root strategy run on a file system
holding only `/data/`, and run again on the tree it produced. -/
theorem PrepareSetUIDDirectories_idempotent_witness :
    PrepareSetUIDDirectories sampleEnv aliceExecutor [("/data/", ⟨0, 0, 0o755⟩)]
        (sampleOptions "alice" "/data/" [] [] [] []) (mapping "/srv") =
      (none,
        { aliceExecutor with
          DefaultBuildsDir := "/data/ns/proj/builds/users/alice"
          DefaultCacheDir := "/data/ns/proj/cache/users/alice" },
        [("/data/ns/proj/cache/users/alice", ⟨1000, 1000, 0o750⟩),
          ("/data/ns/proj/builds/users/alice", ⟨1000, 1000, 0o750⟩),
          ("/data/ns/proj/cache/users", ⟨0, 0, 0o701⟩),
          ("/data/ns/proj/builds/users", ⟨0, 0, 0o701⟩),
          ("/data/ns/proj/cache", ⟨0, 0, 0o701⟩),
          ("/data/ns/proj/builds", ⟨0, 0, 0o701⟩),
          ("/data/ns/proj", ⟨0, 0, 0o701⟩),
          ("/data/ns", ⟨0, 0, 0o701⟩),
          ("/data/", ⟨0, 0, 0o755⟩)]) ∧
    PrepareSetUIDDirectories sampleEnv aliceExecutor
        [("/data/ns/proj/cache/users/alice", ⟨1000, 1000, 0o750⟩),
          ("/data/ns/proj/builds/users/alice", ⟨1000, 1000, 0o750⟩),
          ("/data/ns/proj/cache/users", ⟨0, 0, 0o701⟩),
          ("/data/ns/proj/builds/users", ⟨0, 0, 0o701⟩),
          ("/data/ns/proj/cache", ⟨0, 0, 0o701⟩),
          ("/data/ns/proj/builds", ⟨0, 0, 0o701⟩),
          ("/data/ns/proj", ⟨0, 0, 0o701⟩),
          ("/data/ns", ⟨0, 0, 0o701⟩),
          ("/data/", ⟨0, 0, 0o755⟩)]
        (sampleOptions "alice" "/data/" [] [] [] []) (mapping "/srv") =
      (none,
        { aliceExecutor with
          DefaultBuildsDir := "/data/ns/proj/builds/users/alice"
          DefaultCacheDir := "/data/ns/proj/cache/users/alice" },
        [("/data/ns/proj/cache/users/alice", ⟨1000, 1000, 0o750⟩),
          ("/data/ns/proj/builds/users/alice", ⟨1000, 1000, 0o750⟩),
          ("/data/ns/proj/cache/users", ⟨0, 0, 0o701⟩),
          ("/data/ns/proj/builds/users", ⟨0, 0, 0o701⟩),
          ("/data/ns/proj/cache", ⟨0, 0, 0o701⟩),
          ("/data/ns/proj/builds", ⟨0, 0, 0o701⟩),
          ("/data/ns/proj", ⟨0, 0, 0o701⟩),
          ("/data/ns", ⟨0, 0, 0o701⟩),
          ("/data/", ⟨0, 0, 0o755⟩)]) :=
  ⟨by decide,
    (PrepareSetUIDDirectories_idempotent sampleEnv aliceExecutor _ [("/data/", ⟨0, 0, 0o755⟩)] _
      (sampleOptions "alice" "/data/" [] [] [] []) (mapping "/srv") (by decide)).1⟩

/-! ## Directory provisioner: layout of the fresh tree -/

theorem CreateDirectory_stat_created (env : Env) (fs : FS) (dir : String)
    (owner group mode : Nat) (hmiss : stat fs dir = none)
    (hok : (CreateDirectory env fs dir owner group mode).1.isSome = false) (q : String) :
    stat (CreateDirectory env fs dir owner group mode).2 q =
      if dir = q then some ⟨owner, group, mode⟩ else stat fs q := by
  rw [CreateDirectory_of_missing env fs dir owner group mode hmiss] at hok ⊢
  by_cases hm : env.mkdirFails dir = true
  · simp [hm] at hok
  by_cases hc : env.chownFails dir = true
  · simp [hm, hc] at hok
  rw [if_neg hm, if_neg hc]
  show stat (Chown ((dir, ⟨env.euid, env.egid, mode⟩) :: fs) dir owner group) q = _
  rw [stat_Chown, stat_cons]
  by_cases hq : dir = q
  · rw [if_pos hq, if_pos hq]
    simp [hq.symm]
  · have hq2 : ¬ q = dir := fun e => hq e.symm
    rw [if_neg hq, if_neg hq]
    simp [hq2]

/-- Layout of a tree created by `prepareTree` from a missing namespace directory
`groupDir` with nothing beneath it: on success the namespace, project, `builds`, `cache`
and both `users` directories exist with owner 0 and the given `gid` and `mode`, the two
per-user leaves with the validated identity as owner and mode `0750`, and every other
path is as before. -/
theorem prepareTree_fresh_layout (env : Env) (s s1 : executor) (fs fs1 : FS)
    (groupDir projectName : String) (gid mode : Nat)
    (hG : stat fs groupDir = none) (hsub : ∀ r, stat fs (groupDir ++ "/" ++ r) = none)
    (h : prepareTree env s fs groupDir projectName gid mode = (none, s1, fs1)) (q : String) :
    stat fs1 q =
      if groupDir ++ "/" ++ projectName ++ "/" ++ "cache" ++ "/" ++ "users" ++ "/" ++
          s.ValidatedUser = q then
        some ⟨s.ValidatedUserUID, s.ValidatedUserGID, 0o750⟩
      else if groupDir ++ "/" ++ projectName ++ "/" ++ "builds" ++ "/" ++ "users" ++ "/" ++
          s.ValidatedUser = q then
        some ⟨s.ValidatedUserUID, s.ValidatedUserGID, 0o750⟩
      else if groupDir ++ "/" ++ projectName ++ "/" ++ "cache" ++ "/" ++ "users" = q then
        some ⟨0, gid, mode⟩
      else if groupDir ++ "/" ++ projectName ++ "/" ++ "builds" ++ "/" ++ "users" = q then
        some ⟨0, gid, mode⟩
      else if groupDir ++ "/" ++ projectName ++ "/" ++ "cache" = q then some ⟨0, gid, mode⟩
      else if groupDir ++ "/" ++ projectName ++ "/" ++ "builds" = q then some ⟨0, gid, mode⟩
      else if groupDir ++ "/" ++ projectName = q then some ⟨0, gid, mode⟩
      else if groupDir = q then some ⟨0, gid, mode⟩
      else stat fs q := by
  have hP : stat fs (groupDir ++ "/" ++ projectName) = none := hsub projectName
  have hB : stat fs (groupDir ++ "/" ++ projectName ++ "/" ++ "builds") = none := by
    simpa [String.append_assoc] using hsub (projectName ++ "/" ++ "builds")
  have hC : stat fs (groupDir ++ "/" ++ projectName ++ "/" ++ "cache") = none := by
    simpa [String.append_assoc] using hsub (projectName ++ "/" ++ "cache")
  have hUB : stat fs (groupDir ++ "/" ++ projectName ++ "/" ++ "builds" ++ "/" ++ "users")
      = none := by
    simpa [String.append_assoc] using hsub (projectName ++ "/" ++ "builds" ++ "/" ++ "users")
  have hUC : stat fs (groupDir ++ "/" ++ projectName ++ "/" ++ "cache" ++ "/" ++ "users")
      = none := by
    simpa [String.append_assoc] using hsub (projectName ++ "/" ++ "cache" ++ "/" ++ "users")
  have hVB : stat fs (groupDir ++ "/" ++ projectName ++ "/" ++ "builds" ++ "/" ++ "users" ++
      "/" ++ s.ValidatedUser) = none := by
    simpa [String.append_assoc] using
      hsub (projectName ++ "/" ++ "builds" ++ "/" ++ "users" ++ "/" ++ s.ValidatedUser)
  have hVC : stat fs (groupDir ++ "/" ++ projectName ++ "/" ++ "cache" ++ "/" ++ "users" ++
      "/" ++ s.ValidatedUser) = none := by
    simpa [String.append_assoc] using
      hsub (projectName ++ "/" ++ "cache" ++ "/" ++ "users" ++ "/" ++ s.ValidatedUser)
  unfold prepareTree at h
  simp only at h
  split at h
  · simp at h
  rename_i hg
  split at h
  · simp at h
  rename_i hp
  split_ifs at h with hbc hu hv
  · simp at h
  · simp at h
  · simp at h
  simp only [Prod.mk.injEq, true_and] at h
  obtain ⟨-, hfs⟩ := h
  simp only [Bool.or_eq_true, not_or, Bool.not_eq_true] at hbc hu hv
  have e1 := CreateDirectory_stat_created env fs groupDir 0 gid mode hG (by rw [hg]; rfl)
  have e2 := CreateDirectory_stat_created env _ (groupDir ++ "/" ++ projectName) 0 gid mode
    (by rw [e1, hP]; simp [String.ext_iff, String.data_append]) (by rw [hp]; rfl)
  have E2 := fun q => (e2 q).trans (by rw [e1 q])
  have e3 := CreateDirectory_stat_created env _
    (groupDir ++ "/" ++ projectName ++ "/" ++ "builds") 0 gid mode
    (by rw [E2, hB]; simp [String.ext_iff, String.data_append]) hbc.2
  have E3 := fun q => (e3 q).trans (by rw [E2 q])
  have e4 := CreateDirectory_stat_created env _
    (groupDir ++ "/" ++ projectName ++ "/" ++ "cache") 0 gid mode
    (by rw [E3, hC]; simp [String.ext_iff, String.data_append]) hbc.1
  have E4 := fun q => (e4 q).trans (by rw [E3 q])
  have e5 := CreateDirectory_stat_created env _
    (groupDir ++ "/" ++ projectName ++ "/" ++ "builds" ++ "/" ++ "users") 0 gid mode
    (by rw [E4, hUB]; simp [String.ext_iff, String.data_append]) hu.1
  have E5 := fun q => (e5 q).trans (by rw [E4 q])
  have e6 := CreateDirectory_stat_created env _
    (groupDir ++ "/" ++ projectName ++ "/" ++ "cache" ++ "/" ++ "users") 0 gid mode
    (by rw [E5, hUC]; simp [String.ext_iff, String.data_append]) hu.2
  have E6 := fun q => (e6 q).trans (by rw [E5 q])
  have e7 := CreateDirectory_stat_created env _
    (groupDir ++ "/" ++ projectName ++ "/" ++ "builds" ++ "/" ++ "users" ++ "/" ++
      s.ValidatedUser) s.ValidatedUserUID s.ValidatedUserGID 0o750
    (by rw [E6, hVB]; simp [String.ext_iff, String.data_append]) hv.1
  have E7 := fun q => (e7 q).trans (by rw [E6 q])
  have e8 := CreateDirectory_stat_created env _
    (groupDir ++ "/" ++ projectName ++ "/" ++ "cache" ++ "/" ++ "users" ++ "/" ++
      s.ValidatedUser) s.ValidatedUserUID s.ValidatedUserGID 0o750
    (by rw [E7, hVC]; simp [String.ext_iff, String.data_append]) hv.2
  rw [← hfs, e8 q, E7 q]

/-- Layout produced by the explicit-shared-root strategy in the fresh case, for every
data directory, namespace, project and identity: the namespace directory is the data
directory string followed directly by the namespace, and on success the build and cache
directories are the per-user leaves beneath it, the directories above them are
`root:root` with mode `0701` and the leaves belong to the validated identity with mode
`0750`. -/
theorem PrepareSetUIDDirectories_fresh_layout (env : Env) (s s1 : executor) (fs fs1 : FS)
    (options : ExecutorPrepareOptions) (mp : String → String) (groupDir : String)
    (hgroupDir : groupDir =
      options.Runner.SetUIDDataDir ++ options.Variables "CI_PROJECT_NAMESPACE")
    (hhome : options.Runner.SetUIDDataDir ≠ "$HOME") (hset : options.Runner.SetUIDDataDir ≠ "")
    (hG : stat fs groupDir = none) (hsub : ∀ r, stat fs (groupDir ++ "/" ++ r) = none)
    (h : PrepareSetUIDDirectories env s fs options mp = (none, s1, fs1)) :
    s1.DefaultBuildsDir =
        groupDir ++ "/" ++ options.Variables "CI_PROJECT_NAME" ++ "/builds/users/" ++
          s.ValidatedUser ∧
      s1.DefaultCacheDir =
        groupDir ++ "/" ++ options.Variables "CI_PROJECT_NAME" ++ "/cache/users/" ++
          s.ValidatedUser ∧
      stat fs1 groupDir = some ⟨0, 0, 0o701⟩ ∧
      stat fs1 (groupDir ++ "/" ++ options.Variables "CI_PROJECT_NAME") = some ⟨0, 0, 0o701⟩ ∧
      stat fs1 (groupDir ++ "/" ++ options.Variables "CI_PROJECT_NAME" ++ "/builds") =
        some ⟨0, 0, 0o701⟩ ∧
      stat fs1 (groupDir ++ "/" ++ options.Variables "CI_PROJECT_NAME" ++ "/cache") =
        some ⟨0, 0, 0o701⟩ ∧
      stat fs1 (groupDir ++ "/" ++ options.Variables "CI_PROJECT_NAME" ++ "/builds/users") =
        some ⟨0, 0, 0o701⟩ ∧
      stat fs1 (groupDir ++ "/" ++ options.Variables "CI_PROJECT_NAME" ++ "/cache/users") =
        some ⟨0, 0, 0o701⟩ ∧
      stat fs1 s1.DefaultBuildsDir = some ⟨s.ValidatedUserUID, s.ValidatedUserGID, 0o750⟩ ∧
      stat fs1 s1.DefaultCacheDir = some ⟨s.ValidatedUserUID, s.ValidatedUserGID, 0o750⟩ := by
  subst hgroupDir
  unfold PrepareSetUIDDirectories at h
  rw [if_neg hhome, if_pos hset] at h
  unfold prepareDataDir at h
  cases hroot : stat fs options.Runner.SetUIDDataDir with
  | none => rw [hroot] at h; simp at h
  | some rootStats =>
    simp only [hroot, hG] at h
    have hs := (prepareTree_ok _ _ _ _ _ _ _ _ _ h).1
    have hl := prepareTree_fresh_layout env s s1 fs fs1 _ _ 0 0o701 hG hsub h
    have hb : ("/builds/users/" : String) = "/" ++ "builds" ++ "/" ++ "users" ++ "/" := by decide
    have hc : ("/cache/users/" : String) = "/" ++ "cache" ++ "/" ++ "users" ++ "/" := by decide
    have hb1 : ("/builds" : String) = "/" ++ "builds" := by decide
    have hc1 : ("/cache" : String) = "/" ++ "cache" := by decide
    have hb2 : ("/builds/users" : String) = "/" ++ "builds" ++ "/" ++ "users" := by decide
    have hc2 : ("/cache/users" : String) = "/" ++ "cache" ++ "/" ++ "users" := by decide
    rw [hb, hc, hb1, hc1, hb2, hc2, hs]
    simp only [← String.append_assoc]
    refine ⟨trivial, trivial, ?_, ?_, ?_, ?_, ?_, ?_, ?_, ?_⟩ <;>
      · rw [hl]
        simp [String.ext_iff, String.data_append]

theorem CreateDirectory_preserves (env : Env) (fs : FS) (dir q : String)
    (owner group mode : Nat) (st : Stat) (h : stat fs q = some st) :
    stat (CreateDirectory env fs dir owner group mode).2 q = some st := by
  cases hs : stat fs dir with
  | none =>
    have hq : ¬ dir = q := by
      intro e
      rw [e, h] at hs
      exact absurd hs (by simp)
    have hq2 : ¬ q = dir := fun e => hq e.symm
    rw [CreateDirectory_of_missing env fs dir owner group mode hs]
    split_ifs with hm hc
    · exact h
    · show stat ((dir, ⟨env.euid, env.egid, mode⟩) :: fs) q = some st
      rw [stat_cons, if_neg hq]
      exact h
    · show stat (Chown ((dir, ⟨env.euid, env.egid, mode⟩) :: fs) dir owner group) q = some st
      rw [stat_Chown, stat_cons, if_neg hq, h]
      simp [hq2]
  | some st2 =>
    rw [CreateDirectory_of_exists env fs dir owner group mode (by rw [hs]; rfl)]
    exact h

/-- What the explicit-shared-root strategy gives a project directory it creates under
an existing namespace directory: owner 0, the group id of the namespace directory, and
mode `0750` whatever the mode of the namespace directory is. -/
theorem PrepareSetUIDDirectories_existing_namespace (env : Env) (s s1 : executor)
    (fs fs1 : FS) (options : ExecutorPrepareOptions) (mp : String → String)
    (groupDirStats : Stat)
    (hhome : options.Runner.SetUIDDataDir ≠ "$HOME") (hset : options.Runner.SetUIDDataDir ≠ "")
    (hG : stat fs (options.Runner.SetUIDDataDir ++ options.Variables "CI_PROJECT_NAMESPACE") =
      some groupDirStats)
    (hP : stat fs (options.Runner.SetUIDDataDir ++ options.Variables "CI_PROJECT_NAMESPACE" ++
      "/" ++ options.Variables "CI_PROJECT_NAME") = none)
    (h : PrepareSetUIDDirectories env s fs options mp = (none, s1, fs1)) :
    stat fs1 (options.Runner.SetUIDDataDir ++ options.Variables "CI_PROJECT_NAMESPACE" ++
        "/" ++ options.Variables "CI_PROJECT_NAME") = some ⟨0, groupDirStats.Gid, 0o750⟩ ∧
      stat fs1 (options.Runner.SetUIDDataDir ++ options.Variables "CI_PROJECT_NAMESPACE") =
        some groupDirStats := by
  unfold PrepareSetUIDDirectories at h
  rw [if_neg hhome, if_pos hset] at h
  unfold prepareDataDir at h
  cases hroot : stat fs options.Runner.SetUIDDataDir with
  | none => rw [hroot] at h; simp at h
  | some rootStats =>
    simp only [hroot, hG] at h
    unfold prepareTree at h
    simp only at h
    split at h
    · simp at h
    rename_i hg
    split at h
    · simp at h
    rename_i hp
    split_ifs at h with hbc hu hv
    · simp at h
    · simp at h
    · simp at h
    simp only [Prod.mk.injEq, true_and] at h
    obtain ⟨-, hfs⟩ := h
    have hgfs := CreateDirectory_of_exists env fs
      (options.Runner.SetUIDDataDir ++ options.Variables "CI_PROJECT_NAMESPACE") 0
      groupDirStats.Gid 0o750 (by rw [hG]; rfl)
    have e2 := CreateDirectory_stat_created env
      (CreateDirectory env fs
        (options.Runner.SetUIDDataDir ++ options.Variables "CI_PROJECT_NAMESPACE") 0
        groupDirStats.Gid 0o750).2
      (options.Runner.SetUIDDataDir ++ options.Variables "CI_PROJECT_NAMESPACE" ++ "/" ++
        options.Variables "CI_PROJECT_NAME") 0 groupDirStats.Gid 0o750
      (by rw [hgfs]; exact hP) (by rw [hp]; rfl)
    have hP2 := e2 (options.Runner.SetUIDDataDir ++ options.Variables "CI_PROJECT_NAMESPACE" ++
      "/" ++ options.Variables "CI_PROJECT_NAME")
    rw [if_pos rfl] at hP2
    have hG2 := CreateDirectory_preserves env
      (CreateDirectory env fs
        (options.Runner.SetUIDDataDir ++ options.Variables "CI_PROJECT_NAMESPACE") 0
        groupDirStats.Gid 0o750).2
      (options.Runner.SetUIDDataDir ++ options.Variables "CI_PROJECT_NAMESPACE" ++ "/" ++
        options.Variables "CI_PROJECT_NAME")
      (options.Runner.SetUIDDataDir ++ options.Variables "CI_PROJECT_NAMESPACE")
      0 groupDirStats.Gid 0o750 groupDirStats (by rw [hgfs]; exact hG)
    rw [← hfs]
    constructor
    · iterate 6 apply CreateDirectory_preserves
      exact hP2
    · iterate 6 apply CreateDirectory_preserves
      exact hG2

/-! ## Provisioning failures are not propagated -/

/-- C6 (evaluation at the failing input): `alice` is whitelisted and the configured data
directory `/data/` does not exist. `PrepareSetUIDDirectories` returns the data-dir-missing
error, yet `prepareSetUID` and `Prepare` return no error, the shell user is set to
`alice`, and the build and cache directories stay the unexpanded templates. -/
theorem prepareSetUID_discards_provisioning_error :
    PrepareSetUIDDirectories sampleEnv aliceExecutor []
        (sampleOptions "alice" "/data/" ["alice"] [] [] []) (mapping "/srv") =
      (some .dataDirMissing, aliceExecutor, []) ∧
    prepareSetUID sampleEnv freshExecutor []
        (sampleOptions "alice" "/data/" ["alice"] [] [] []) (mapping "/srv") =
      (.ok, { aliceExecutor with ShellUser := "alice" }, []) ∧
    Prepare sampleEnv freshExecutor [] (sampleOptions "alice" "/data/" ["alice"] [] [] []) =
      (.ok, { aliceExecutor with
        ShellUser := "alice"
        DefaultBuildsDir := "$PWD/builds"
        DefaultCacheDir := "$PWD/cache"
        Printed := ["Using SetUID Shell executor..."] }, []) := by
  decide

/-! ## Directory provisioner: evaluations -/

/-- C7 (evaluation at the failing input): the namespace directory `/data/ns` exists with
gid 5001 and mode 0770. The project directory created under it gets gid 5001 but mode
0750, and so do the `builds`, `cache` and `users` directories. -/
theorem prepareDataDir_existing_namespace_mode :
    (PrepareSetUIDDirectories sampleEnv aliceExecutor
        [("/data/ns", ⟨0, 5001, 0o770⟩), ("/data/", ⟨0, 0, 0o755⟩)]
        (sampleOptions "alice" "/data/" [] [] [] []) (mapping "/srv")).1 = none ∧
    (["/data/ns/proj", "/data/ns/proj/builds", "/data/ns/proj/cache",
        "/data/ns/proj/builds/users", "/data/ns/proj/cache/users"].map
      (stat (PrepareSetUIDDirectories sampleEnv aliceExecutor
        [("/data/ns", ⟨0, 5001, 0o770⟩), ("/data/", ⟨0, 0, 0o755⟩)]
        (sampleOptions "alice" "/data/" [] [] [] []) (mapping "/srv")).2.2)) =
      List.replicate 5 (some ⟨0, 5001, 0o750⟩) ∧
    (0o750 : Nat) ≠ 0o770 := by
  decide

/-- C9 (evaluation at the failing input): the data directory `/data` exists and is
configured without a trailing separator. Provisioning succeeds, the namespace directory
is created as `/datans` beside the data directory, nothing is created at `/data/ns`, and
the build and cache directories are `/datans/proj/builds/users/alice` and
`/datans/proj/cache/users/alice`. -/
theorem prepareDataDir_fresh_without_separator :
    (PrepareSetUIDDirectories sampleEnv aliceExecutor [("/data", ⟨0, 0, 0o755⟩)]
        (sampleOptions "alice" "/data" [] [] [] []) (mapping "/srv")).1 = none ∧
    (PrepareSetUIDDirectories sampleEnv aliceExecutor [("/data", ⟨0, 0, 0o755⟩)]
        (sampleOptions "alice" "/data" [] [] [] []) (mapping "/srv")).2.1.DefaultBuildsDir =
      "/datans/proj/builds/users/alice" ∧
    (PrepareSetUIDDirectories sampleEnv aliceExecutor [("/data", ⟨0, 0, 0o755⟩)]
        (sampleOptions "alice" "/data" [] [] [] []) (mapping "/srv")).2.1.DefaultCacheDir =
      "/datans/proj/cache/users/alice" ∧
    stat (PrepareSetUIDDirectories sampleEnv aliceExecutor [("/data", ⟨0, 0, 0o755⟩)]
        (sampleOptions "alice" "/data" [] [] [] []) (mapping "/srv")).2.2 "/datans" =
      some ⟨0, 0, 0o701⟩ ∧
    stat (PrepareSetUIDDirectories sampleEnv aliceExecutor [("/data", ⟨0, 0, 0o755⟩)]
        (sampleOptions "alice" "/data" [] [] [] []) (mapping "/srv")).2.2 "/data/ns" = none := by
  decide

/-- C10 (evaluation at the failing input): default strategy on an empty file system with
working directory `/srv`. The `users/` parent under the build template is created
`root:root` with mode 0751, the one under the cache template `root:root` with mode 70
(octal 0106); the leaves are owned by `alice` with mode 0750 and become the build and
cache directories. -/
theorem prepareDefault_cache_parent_mode :
    PrepareSetUIDDirectories sampleEnv aliceExecutor []
        (sampleOptions "alice" "" [] [] [] []) (mapping "/srv") =
      (none,
        { aliceExecutor with
          DefaultBuildsDir := "/srv/builds/users/alice"
          DefaultCacheDir := "/srv/cache/users/alice" },
        [("/srv/cache/users/alice", ⟨1000, 1000, 0o750⟩),
          ("/srv/builds/users/alice", ⟨1000, 1000, 0o750⟩),
          ("/srv/cache/users/", ⟨0, 0, 0o106⟩),
          ("/srv/builds/users/", ⟨0, 0, 0o751⟩)]) ∧
    (0o106 : Nat) = 70 ∧ (0o106 : Nat) ≠ 0o751 := by
  decide

/-! ## Batch job adapter: forwarding of scheduler failures -/

namespace HPC

/-- The failures `Run` does forward: a failing session creation, template allocation,
submission or status query before the loop gives the matching error whatever the fuel,
and a failing wait gives the wait error whenever the polling loop has ended. -/
theorem Run_forwards_checked_failures (sched : Scheduler) (fuel : Nat) :
    (∀ e, sched.MakeSession = some e → Run sched fuel = some (some (.session e), [])) ∧
    (∀ e, sched.MakeSession = none → sched.AllocateJobTemplate = some e →
      Run sched fuel = some (some (.jobTemplate e), [.sessionExit])) ∧
    (∀ e, sched.MakeSession = none → sched.AllocateJobTemplate = none →
      sched.RunJob = .error e →
      Run sched fuel = some (some (.runJob e), [.deleteJobTemplate, .sessionExit])) ∧
    (∀ jobID e, sched.MakeSession = none → sched.AllocateJobTemplate = none →
      sched.RunJob = .ok jobID → (sched.JobPs 0).2 = some e →
      Run sched fuel = some (some (.statusQuery e), [.deleteJobTemplate, .sessionExit])) ∧
    (∀ jobID e r, sched.MakeSession = none → sched.AllocateJobTemplate = none →
      sched.RunJob = .ok jobID → (sched.JobPs 0).2 = none → sched.Wait = some e →
      Run sched fuel = some r → r.1 = some (.wait jobID e)) := by
  refine ⟨?_, ?_, ?_, ?_, ?_⟩
  · intro e h1
    simp only [Run, h1]
  · intro e h1 h2
    simp only [Run, h1, h2]
  · intro e h1 h2 h3
    simp only [Run, h1, h2, h3]
  · intro jobID e h1 h2 h3 h4
    simp only [Run, h1, h2, h3, h4]
  · intro jobID e r h1 h2 h3 h4 h5 hr
    simp only [Run, h1, h2, h3, h4, h5] at hr
    split at hr
    · simp at hr
    · simp only [Option.some.injEq] at hr
      rw [← hr]

/-- When the first status query made inside the loop fails, the loop ends with that
error in `errPS`, and a succeeding wait makes `Run` return no error: for every scheduler
whose earlier calls succeed with a state other than `Running` before the loop. -/
theorem Run_loop_query_error_lost (sched : Scheduler) (fuel : Nat) (jobID e : String)
    (h1 : sched.MakeSession = none) (h2 : sched.AllocateJobTemplate = none)
    (h3 : sched.RunJob = .ok jobID) (h4 : (sched.JobPs 0).2 = none)
    (h5 : (sched.JobPs 0).1 ≠ .PsRunning) (h6 : (sched.JobPs 1).2 = some e)
    (h7 : sched.Wait = none) :
    Run sched (fuel + 1) =
      some (none, [.printStatus (sched.JobPs 0).1, .sleep500ms, .printCompleted,
        .deleteJobTemplate, .sessionExit]) := by
  have hloop : pollLoop sched (fuel + 1)
      { ps := (sched.JobPs 0).1, errPS := none, queries := 1, log := [] } =
      some
        { ps := (sched.JobPs 1).1
          errPS := some e
          queries := 2
          log := [.printStatus (sched.JobPs 0).1, .sleep500ms] } := by
    rw [pollLoop]
    simp only [h5, ne_eq, not_false_eq_true, and_self, if_true, h6, List.nil_append]
    split
    · rfl
    · cases fuel <;> simp [pollLoop]
  simp only [Run, h1, h2, h3, h4, hloop, h7, List.cons_append, List.nil_append]

/-- C11 (evaluation at the failing input): session, template and submission succeed,
the status query before the loop answers `QueuedActive`, the status query inside the
loop fails, the wait succeeds. `Run` returns no error and prints the completion line;
the error of the status query is in no result. With a failing wait instead, the wait
error is returned. -/
theorem Run_status_error_in_loop_reports_success :
    Run flakyScheduler 1 =
      some (none, [.printStatus .PsQueuedActive, .sleep500ms, .printCompleted,
        .deleteJobTemplate, .sessionExit]) ∧
    Run flakyScheduler 10 = Run flakyScheduler 1 ∧
    (flakyScheduler.JobPs 1).2 = some "communication failure" ∧
    Run waitFailsScheduler 1 =
      some (some (.wait "42" "job killed"),
        [.printStatus .PsQueuedActive, .sleep500ms, .deleteJobTemplate, .sessionExit]) := by
  decide

end HPC

/-! ## Process executor: `killAndWait` returns only with the exit result -/

theorem foldl_killIteration_returned (events : List Select) (k : Nat) (v : WaitResult) :
    events.foldl killIteration { signals := k, returned := some v } =
      { signals := k, returned := some v } := by
  induction events with
  | nil => rfl
  | cons ev rest ih => simpa [List.foldl_cons, killIteration] using ih

theorem foldl_killIteration_timeouts (n k : Nat) :
    (List.replicate n Select.timeout).foldl killIteration { signals := k, returned := none } =
      { signals := k + n, returned := none } := by
  induction n generalizing k with
  | zero => rfl
  | succ n ih =>
    rw [List.replicate_succ, List.foldl_cons]
    show List.foldl killIteration { signals := k + 1, returned := none } _ = _
    rw [ih (k + 1)]
    congr 1
    omega

theorem foldl_killIteration_returns (events : List Select) (k : Nat) (v : WaitResult) :
    (events.foldl killIteration { signals := k, returned := none }).returned = some v ↔
      ∃ n rest, events = List.replicate n Select.timeout ++ Select.received v :: rest ∧
        (events.foldl killIteration { signals := k, returned := none }).signals = k + n + 1 := by
  induction events generalizing k with
  | nil =>
    constructor
    · intro h
      exact absurd h (by simp)
    · rintro ⟨n, rest, h, -⟩
      exact absurd h (by simp)
  | cons ev es ih =>
    cases ev with
    | timeout =>
      rw [List.foldl_cons]
      show (List.foldl killIteration { signals := k + 1, returned := none } es).returned
        = some v ↔ _
      rw [ih (k + 1)]
      constructor
      · rintro ⟨n, rest, h, hs⟩
        refine ⟨n + 1, rest, ?_, ?_⟩
        · rw [h, List.replicate_succ, List.cons_append]
        · show (List.foldl killIteration { signals := k + 1, returned := none } es).signals = _
          rw [hs]
          omega
      · rintro ⟨n, rest, h, hs⟩
        cases n with
        | zero => simp at h
        | succ m =>
          rw [List.replicate_succ, List.cons_append, List.cons.injEq] at h
          refine ⟨m, rest, h.2, ?_⟩
          have hs2 : (List.foldl killIteration { signals := k + 1, returned := none } es).signals
              = k + (m + 1) + 1 := hs
          rw [hs2]
          omega
    | received e =>
      rw [List.foldl_cons]
      show (List.foldl killIteration { signals := k + 1, returned := some e } es).returned
        = some v ↔ _
      rw [foldl_killIteration_returned]
      constructor
      · intro h
        simp only [Option.some.injEq] at h
        subst h
        refine ⟨0, es, rfl, ?_⟩
        show (List.foldl killIteration { signals := k + 1, returned := some e } es).signals = _
        rw [foldl_killIteration_returned]
      · rintro ⟨n, rest, h, -⟩
        cases n with
        | zero =>
          simp only [List.replicate_zero, List.nil_append, List.cons.injEq,
            Select.received.injEq] at h
          rw [h.1]
        | succ m => simp [List.replicate_succ] at h

theorem foldl_killIteration_looping (events : List Select) (k : Nat) :
    (events.foldl killIteration { signals := k, returned := none }).returned = none ↔
      events = List.replicate events.length Select.timeout := by
  induction events generalizing k with
  | nil => simp
  | cons ev es ih =>
    cases ev with
    | timeout =>
      rw [List.foldl_cons]
      show (List.foldl killIteration { signals := k + 1, returned := none } es).returned
        = none ↔ _
      rw [ih (k + 1)]
      simp [List.replicate_succ]
    | received e =>
      rw [List.foldl_cons]
      show (List.foldl killIteration { signals := k + 1, returned := some e } es).returned
        = none ↔ _
      rw [foldl_killIteration_returned]
      simp [List.replicate_succ]

/-- C12: `killAndWait` returns only by receiving the exit result from `waitCh`. Every
iteration signals the process group once; an iteration whose `select` takes the timer
case has not returned and the loop goes on; an iteration that receives a value returns
it. Along any sequence of `select` outcomes the function has returned `v` exactly when
the outcomes are some number `n` of timeouts followed by the receipt of `v`, the process
group having been signalled `n + 1` times; it is still looping exactly when every
outcome so far was a timeout, with one signal sent per outcome. On cancellation `Run`
returns what `killAndWait` returns. -/
theorem killAndWait_returns_only_exit_result (events : List Select) :
    (∀ st ev, st.returned = none → (killIteration st ev).signals = st.signals + 1) ∧
    (∀ st, st.returned = none → (killIteration st .timeout).returned = none) ∧
    (∀ st err, st.returned = none → (killIteration st (.received err)).returned = some err) ∧
    (∀ v, (killAndWait events).returned = some v ↔
      ∃ n rest, events = List.replicate n Select.timeout ++ Select.received v :: rest ∧
        (killAndWait events).signals = n + 1) ∧
    ((killAndWait events).returned = none ↔
      events = List.replicate events.length Select.timeout) ∧
    ((killAndWait events).returned = none → (killAndWait events).signals = events.length) ∧
    awaitOrAbort .cancelled events = killAndWait events := by
  refine ⟨?_, ?_, ?_, ?_, ?_, ?_, rfl⟩
  · intro st ev h
    cases ev <;> simp [killIteration, h]
  · intro st h
    simp [killIteration, h]
  · intro st err h
    simp [killIteration, h]
  · intro v
    have := foldl_killIteration_returns events 0 v
    simpa [killAndWait] using this
  · exact foldl_killIteration_looping events 0
  · intro h
    have hev := (foldl_killIteration_looping events 0).1 h
    have := foldl_killIteration_timeouts events.length 0
    rw [← hev] at this
    show (List.foldl killIteration { signals := 0, returned := none } events).signals = _
    rw [this]
    simp

/-- Instance: two timeouts, then the exit result of a process killed with status 143
arrives; three signals were sent and later outcomes are never looked at. -/
theorem killAndWait_sample :
    killAndWait [.timeout, .timeout, .received (.buildError 143), .timeout] =
      { signals := 3, returned := some (.buildError 143) } ∧
    killAndWait [.timeout, .timeout, .timeout] = { signals := 3, returned := none } := by
  decide

/-! ## Identity validator: the last branch is dead -/

/-- C13: the final branch of `ValidateUser` is unreachable. The conditions of the six
rules before it are exhaustive for every login, groups and four policy lists, and
`ValidateUser` never returns the could-not-validate error, for every user database,
executor and options (also when an OS lookup fails). -/
theorem ValidateUser_fallthrough_unreachable (db : UserDB) (s : executor)
    (options : ExecutorPrepareOptions) (login : String) (groups : List String) :
    (contains options.Runner.SetUIDUserWhitelist login = true ∨
      contains options.Runner.SetUIDUserBlacklist login = true ∨
      (CheckGroupBlacklist options.Runner.SetUIDGroupBlacklist groups).1 = true ∨
      CheckGroupWhitelist options.Runner.SetUIDGroupWhitelist groups = true ∨
      options.Runner.SetUIDGroupWhitelist.length = 0 ∨
      (decide (options.Runner.SetUIDGroupWhitelist.length > 0) &&
        !CheckGroupWhitelist options.Runner.SetUIDGroupWhitelist groups) = true) ∧
    (ValidateUser db s options).1 ≠ .failed (.couldNotValidate login) := by
  constructor
  · by_cases h1 : contains options.Runner.SetUIDUserWhitelist login = true
    · exact Or.inl h1
    by_cases h2 : contains options.Runner.SetUIDUserBlacklist login = true
    · exact Or.inr (Or.inl h2)
    by_cases h3 : (CheckGroupBlacklist options.Runner.SetUIDGroupBlacklist groups).1 = true
    · exact Or.inr (Or.inr (Or.inl h3))
    by_cases h4 : CheckGroupWhitelist options.Runner.SetUIDGroupWhitelist groups = true
    · exact Or.inr (Or.inr (Or.inr (Or.inl h4)))
    by_cases h5 : options.Runner.SetUIDGroupWhitelist.length = 0
    · exact Or.inr (Or.inr (Or.inr (Or.inr (Or.inl h5))))
    · refine Or.inr (Or.inr (Or.inr (Or.inr (Or.inr ?_))))
      have hpos : options.Runner.SetUIDGroupWhitelist.length > 0 := Nat.pos_of_ne_zero h5
      simp [hpos, h4]
  · unfold ValidateUser
    simp only
    split
    · simp
    split
    · simp
    split
    · simp
    split
    · simp
    split
    · simp
    split
    · simp
    split
    · simp
    split
    · simp
    split
    · simp
    · rename_i h4 h5 h6
      exfalso
      apply h6
      have hpos : options.Runner.SetUIDGroupWhitelist.length > 0 := Nat.pos_of_ne_zero h5
      simp [hpos, h4]

end SetUID
